import Mathlib

/-!
Verification of the event-sourced cart/inventory core of the repository
(`src/lab_3/app`).  The Python classes `CartAggregate`
(`app/domain/cart/aggregate.py`), `ProductAggregate`
(`app/domain/product/aggregate.py`) and the two event stores
(`app/infrastructure/repositories/event_store.py`,
`app/infrastructure/repositories/product_event_store.py`) are shallowly
embedded below.

Modelling conventions:
* Python `dict` (insertion ordered, unique keys) is an association list;
  assignment updates the entry in place, `pop` filters it out.
* `datetime` values are abstract `Nat` instants; `timedelta(minutes=m)` is
  `m`; `StockReservation.is_expired` compares `now > reserved_until`
  exactly as the source does.  Functions reading the clock take `now`
  explicitly.
* Python `float` prices are modelled as `ℚ`; `int` quantities/stock as `ℤ`.
* A method that mutates `self` and may `raise ValueError` becomes a
  function returning `State × Option String`: the state of the object
  after the call (mutations before a `raise` persist, as in Python) and
  the raised message, `none` on normal return.
* `uuid4()` event ids and the event's `aggregate_id` field are omitted
  from embedded events: no `_apply_*` handler and no property under
  verification reads them (uniqueness of `event_id` matters only for the
  event-store table and is modelled there).
-/

/-- First value stored under key `k` (Python `d.get(k)` / `d[k]`). -/
def alGet {κ β : Type} [BEq κ] (l : List (κ × β)) (k : κ) : Option β :=
  (l.find? (fun p => p.1 == k)).map Prod.snd

/-- Python `d[k] = v`: replace in place when the key is present, else append. -/
def alSet {κ β : Type} [BEq κ] (l : List (κ × β)) (k : κ) (v : β) : List (κ × β) :=
  if l.any (fun p => p.1 == k) then
    l.map (fun p => if p.1 == k then (p.1, v) else p)
  else
    l ++ [(k, v)]

/-- Python `d.pop(k, None)`: drop every entry with key `k`. -/
def alErase {κ β : Type} [BEq κ] (l : List (κ × β)) (k : κ) : List (κ × β) :=
  l.filter (fun p => !(p.1 == k))

/-- Keys of an association list are pairwise distinct (always true of a
Python dict reached by `d[k] = v` / `d.pop`). -/
def alNodup {κ β : Type} (l : List (κ × β)) : Prop :=
  (l.map Prod.fst).Nodup

instance {κ β : Type} [DecidableEq κ] (l : List (κ × β)) :
    Decidable (alNodup l) := by
  unfold alNodup
  infer_instance

/-! ### Cart domain (`app/domain/cart`) -/

/-- `CartAggregate.status`: the comment in `__init__` fixes the three values. -/
inductive CartStatus where
  | PENDING
  | CHECKED_OUT
  | EXPIRED
  deriving DecidableEq, Repr

/-- Rendering used by the `ValueError` f-strings. -/
def CartStatus.text : CartStatus → String
  | .PENDING => "PENDING"
  | .CHECKED_OUT => "CHECKED_OUT"
  | .EXPIRED => "EXPIRED"

/-- Value object `CartItem` of `app/domain/cart/aggregate.py`. -/
structure CartItem where
  product_id : String
  product_name : String
  price : ℚ
  quantity : ℤ
  deriving DecidableEq, Repr

/-- `CartItem.total_price`. -/
def CartItem.total_price (it : CartItem) : ℚ :=
  it.price * (it.quantity : ℚ)

/-- The event classes of `app/domain/cart/events.py`.  Each carries the
base-class fields that some handler or property reads
(`aggregate_version`, `occurred_at`) plus its own payload. -/
inductive CartEvent where
  | CartCreated (aggregate_version : Nat) (occurred_at : Nat) (user_id : String)
  | ItemAddedToCart (aggregate_version : Nat) (occurred_at : Nat)
      (product_id : String) (product_name : String) (price : ℚ) (quantity : ℤ)
  | ItemRemovedFromCart (aggregate_version : Nat) (occurred_at : Nat) (product_id : String)
  | ItemQuantityChanged (aggregate_version : Nat) (occurred_at : Nat)
      (product_id : String) (new_quantity : ℤ) (old_quantity : ℤ)
  | CartCheckedOut (aggregate_version : Nat) (occurred_at : Nat)
      (order_id : Nat) (total_amount : ℚ)
  | CartExpired (aggregate_version : Nat) (occurred_at : Nat) (reason : String)
  | ProductReserved (aggregate_version : Nat) (occurred_at : Nat)
      (product_id : String) (reserved_until : Nat)
  | ProductReservationReleased (aggregate_version : Nat) (occurred_at : Nat)
      (product_id : String) (reason : String)
  deriving DecidableEq, Repr

/-- `event.aggregate_version`. -/
def CartEvent.aggregate_version : CartEvent → Nat
  | .CartCreated v _ _ => v
  | .ItemAddedToCart v _ _ _ _ _ => v
  | .ItemRemovedFromCart v _ _ => v
  | .ItemQuantityChanged v _ _ _ _ => v
  | .CartCheckedOut v _ _ _ => v
  | .CartExpired v _ _ => v
  | .ProductReserved v _ _ _ => v
  | .ProductReservationReleased v _ _ _ => v

/-- `event.occurred_at`. -/
def CartEvent.occurred_at : CartEvent → Nat
  | .CartCreated _ t _ => t
  | .ItemAddedToCart _ t _ _ _ _ => t
  | .ItemRemovedFromCart _ t _ => t
  | .ItemQuantityChanged _ t _ _ _ => t
  | .CartCheckedOut _ t _ _ => t
  | .CartExpired _ t _ => t
  | .ProductReserved _ t _ _ => t
  | .ProductReservationReleased _ t _ _ => t

/-- State of `CartAggregate` (`app/domain/cart/aggregate.py`). -/
structure CartAggregate where
  cart_id : Nat
  user_id : Option String
  items : List (String × CartItem)
  status : CartStatus
  version : Nat
  created_at : Option Nat
  last_activity : Option Nat
  uncommitted_events : List CartEvent
  deriving DecidableEq, Repr

/-- `CartAggregate.__init__`. -/
def CartAggregate.init (cart_id : Nat) : CartAggregate :=
  { cart_id := cart_id
    user_id := none
    items := []
    status := .PENDING
    version := 0
    created_at := none
    last_activity := none
    uncommitted_events := [] }

/-- `_apply_ItemAddedToCart` item-map update: merge the quantity when the
product is present, otherwise insert a fresh `CartItem`. -/
def itemsAdd (items : List (String × CartItem)) (pid pname : String)
    (price : ℚ) (qty : ℤ) : List (String × CartItem) :=
  if items.any (fun p => p.1 == pid) then
    items.map (fun p =>
      if p.1 == pid then (p.1, { p.2 with quantity := p.2.quantity + qty }) else p)
  else
    items ++ [(pid, { product_id := pid, product_name := pname,
                      price := price, quantity := qty })]

/-- The fused `_apply_<event_type>` handlers of `CartAggregate` (the
source dispatches on the event-type tag by name; here the dispatch is a
match on the event constructor). -/
def CartAggregate.handle (s : CartAggregate) : CartEvent → CartAggregate
  | .CartCreated v t uid =>
      { s with user_id := some uid, status := .PENDING,
               created_at := some t, last_activity := some t, version := v }
  | .ItemAddedToCart v t pid pname price qty =>
      { s with items := itemsAdd s.items pid pname price qty,
               last_activity := some t, version := v }
  | .ItemRemovedFromCart v t pid =>
      { s with items := alErase s.items pid,
               last_activity := some t, version := v }
  | .ItemQuantityChanged v t pid newq _ =>
      { s with items := s.items.map (fun p =>
                 if p.1 == pid then (p.1, { p.2 with quantity := newq }) else p),
               last_activity := some t, version := v }
  | .CartCheckedOut v t _ _ =>
      { s with status := .CHECKED_OUT, last_activity := some t, version := v }
  | .CartExpired v t _ =>
      { s with status := .EXPIRED, last_activity := some t, version := v }
  | .ProductReserved v _ _ _ =>
      { s with version := v }
  | .ProductReservationReleased v _ _ _ =>
      { s with version := v }

/-- `CartAggregate.apply_event(event, is_new)`. -/
def CartAggregate.apply_event (s : CartAggregate) (e : CartEvent)
    (is_new : Bool) : CartAggregate :=
  let s' := s.handle e
  if is_new then
    { s' with uncommitted_events := s'.uncommitted_events ++ [e] }
  else s'

/-- `CartAggregate.total_amount`. -/
def CartAggregate.total_amount (s : CartAggregate) : ℚ :=
  (s.items.map (fun p => p.2.total_price)).sum

/-- `CartAggregate.item_count`. -/
def CartAggregate.item_count (s : CartAggregate) : ℤ :=
  (s.items.map (fun p => p.2.quantity)).sum

/-- `CartAggregate.create(user_id)`. -/
def CartAggregate.create (s : CartAggregate) (user_id : String) (now : Nat) :
    CartAggregate × Option String :=
  match s.user_id with
  | some _ => (s, some "Cart already created")
  | none =>
      (s.apply_event (.CartCreated (s.version + 1) now user_id) true, none)

/-- `CartAggregate.add_item(product_id, product_name, price, quantity)`. -/
def CartAggregate.add_item (s : CartAggregate) (product_id product_name : String)
    (price : ℚ) (quantity : ℤ) (now : Nat) : CartAggregate × Option String :=
  if s.status ≠ .PENDING then
    (s, some ("Cannot add items to cart with status: " ++ s.status.text))
  else if quantity ≤ 0 then
    (s, some "Quantity must be positive")
  else if price < 0 then
    (s, some "Price cannot be negative")
  else
    (s.apply_event
       (.ItemAddedToCart (s.version + 1) now product_id product_name price quantity)
       true, none)

/-- `CartAggregate.remove_item(product_id)`. -/
def CartAggregate.remove_item (s : CartAggregate) (product_id : String)
    (now : Nat) : CartAggregate × Option String :=
  if s.status ≠ .PENDING then
    (s, some ("Cannot remove items from cart with status: " ++ s.status.text))
  else if (alGet s.items product_id).isNone then
    (s, some ("Product " ++ product_id ++ " not found in cart"))
  else
    (s.apply_event (.ItemRemovedFromCart (s.version + 1) now product_id) true, none)

/-- `CartAggregate.change_quantity(product_id, new_quantity)`. -/
def CartAggregate.change_quantity (s : CartAggregate) (product_id : String)
    (new_quantity : ℤ) (now : Nat) : CartAggregate × Option String :=
  if s.status ≠ .PENDING then
    (s, some ("Cannot change quantity in cart with status: " ++ s.status.text))
  else
    match alGet s.items product_id with
    | none => (s, some ("Product " ++ product_id ++ " not found in cart"))
    | some it =>
        if new_quantity ≤ 0 then
          (s, some "Quantity must be positive")
        else
          (s.apply_event
             (.ItemQuantityChanged (s.version + 1) now product_id new_quantity it.quantity)
             true, none)

/-- `CartAggregate.checkout(order_id)`. -/
def CartAggregate.checkout (s : CartAggregate) (order_id : Nat) (now : Nat) :
    CartAggregate × Option String :=
  if s.status ≠ .PENDING then
    (s, some ("Cannot checkout cart with status: " ++ s.status.text))
  else if s.items.isEmpty then
    (s, some "Cannot checkout empty cart")
  else
    (s.apply_event
       (.CartCheckedOut (s.version + 1) now order_id s.total_amount) true, none)

/-- `CartAggregate.expire(reason)`. -/
def CartAggregate.expire (s : CartAggregate) (reason : String) (now : Nat) :
    CartAggregate × Option String :=
  if s.status ≠ .PENDING then
    (s, some ("Cannot expire cart with status: " ++ s.status.text))
  else
    (s.apply_event (.CartExpired (s.version + 1) now reason) true, none)

/-- One cart command together with the clock value at which it runs
(the source stamps `occurred_at` from the wall clock when the event
object is constructed). -/
inductive CartCmd where
  | create (user_id : String) (now : Nat)
  | add_item (product_id product_name : String) (price : ℚ) (quantity : ℤ) (now : Nat)
  | remove_item (product_id : String) (now : Nat)
  | change_quantity (product_id : String) (new_quantity : ℤ) (now : Nat)
  | checkout (order_id : Nat) (now : Nat)
  | expire (reason : String) (now : Nat)
  deriving DecidableEq, Repr

/-- Dispatch one command to the corresponding `CartAggregate` method. -/
def runCartCmd (s : CartAggregate) : CartCmd → CartAggregate × Option String
  | .create uid now => s.create uid now
  | .add_item pid pname price qty now => s.add_item pid pname price qty now
  | .remove_item pid now => s.remove_item pid now
  | .change_quantity pid newq now => s.change_quantity pid newq now
  | .checkout oid now => s.checkout oid now
  | .expire reason now => s.expire reason now

/-- Run a command sequence against the (persistent, Python-object) state;
a rejected command raises but leaves the object as it was. -/
def runCartCmds (s : CartAggregate) (cs : List CartCmd) : CartAggregate :=
  cs.foldl (fun st c => (runCartCmd st c).1) s

/-- `true` when every command in the sequence is accepted (no
`ValueError` raised): the claims call such sequences legal. -/
def cartCmdsOk : CartAggregate → List CartCmd → Bool
  | _, [] => true
  | s, c :: cs =>
      match runCartCmd s c with
      | (s', none) => cartCmdsOk s' cs
      | (_, some _) => false

/-- `EventStore.load_aggregate`: a fresh `CartAggregate(aggregate_id)`
with every stored event applied in order with `is_new=False`. -/
def loadCartAggregate (cart_id : Nat) (events : List CartEvent) : CartAggregate :=
  events.foldl (fun st e => st.apply_event e false) (CartAggregate.init cart_id)

/-! ### Product domain (`app/domain/product`) -/

/-- Value object `StockReservation` of `app/domain/product/aggregate.py`. -/
structure StockReservation where
  cart_id : Nat
  quantity : ℤ
  reserved_until : Nat
  deriving DecidableEq, Repr

/-- `StockReservation.is_expired`: `datetime.now(timezone.utc) > reserved_until`. -/
def StockReservation.is_expired (r : StockReservation) (now : Nat) : Bool :=
  now > r.reserved_until

/-- The event classes of `app/domain/product/events.py`. -/
inductive ProductEvent where
  | ProductCreated (aggregate_version : Nat) (occurred_at : Nat)
      (name : String) (price : ℚ) (initial_stock : ℤ) (description : String)
  | ProductStockReserved (aggregate_version : Nat) (occurred_at : Nat)
      (cart_id : Nat) (quantity : ℤ) (reserved_until : Nat)
  | ProductStockReservationReleased (aggregate_version : Nat) (occurred_at : Nat)
      (cart_id : Nat) (quantity : ℤ) (reason : String)
  | ProductStockIncreased (aggregate_version : Nat) (occurred_at : Nat) (quantity : ℤ)
  | ProductStockDecreased (aggregate_version : Nat) (occurred_at : Nat)
      (quantity : ℤ) (order_id : Nat)
  | ProductPriceChanged (aggregate_version : Nat) (occurred_at : Nat)
      (old_price new_price : ℚ)
  | ProductUpdated (aggregate_version : Nat) (occurred_at : Nat)
      (nameOpt : Option String) (descriptionOpt : Option String)
  deriving DecidableEq, Repr

/-- `event.aggregate_version`. -/
def ProductEvent.aggregate_version : ProductEvent → Nat
  | .ProductCreated v _ _ _ _ _ => v
  | .ProductStockReserved v _ _ _ _ => v
  | .ProductStockReservationReleased v _ _ _ _ => v
  | .ProductStockIncreased v _ _ => v
  | .ProductStockDecreased v _ _ _ => v
  | .ProductPriceChanged v _ _ _ => v
  | .ProductUpdated v _ _ _ => v

/-- State of `ProductAggregate` (`app/domain/product/aggregate.py`). -/
structure ProductAggregate where
  product_id : String
  name : Option String
  price : ℚ
  description : String
  total_stock : ℤ
  reservations : List (Nat × StockReservation)
  version : Nat
  created_at : Option Nat
  uncommitted_events : List ProductEvent
  deriving DecidableEq, Repr

/-- `ProductAggregate.__init__` (it stamps `created_at` with the clock). -/
def ProductAggregate.init (product_id : String) (now : Nat) : ProductAggregate :=
  { product_id := product_id
    name := none
    price := 0
    description := ""
    total_stock := 0
    reservations := []
    version := 0
    created_at := some now
    uncommitted_events := [] }

/-- The fused `_apply_<event_type>` handlers of `ProductAggregate`. -/
def ProductAggregate.handle (s : ProductAggregate) : ProductEvent → ProductAggregate
  | .ProductCreated v t name price stock desc =>
      { s with name := some name, price := price, total_stock := stock,
               description := desc, created_at := some t, version := v }
  | .ProductStockReserved v _ cid qty ru =>
      { s with reservations :=
                 alSet s.reservations cid
                   { cart_id := cid, quantity := qty, reserved_until := ru },
               version := v }
  | .ProductStockReservationReleased v _ cid _ _ =>
      { s with reservations := alErase s.reservations cid, version := v }
  | .ProductStockIncreased v _ qty =>
      { s with total_stock := s.total_stock + qty, version := v }
  | .ProductStockDecreased v _ qty _ =>
      { s with total_stock := s.total_stock - qty, version := v }
  | .ProductPriceChanged v _ _ newp =>
      { s with price := newp, version := v }
  | .ProductUpdated v _ nameOpt descOpt =>
      { s with name := (match nameOpt with | some n => some n | none => s.name),
               description := (match descOpt with | some d => d | none => s.description),
               version := v }

/-- `ProductAggregate.apply_event(event, is_new)`. -/
def ProductAggregate.apply_event (s : ProductAggregate) (e : ProductEvent)
    (is_new : Bool) : ProductAggregate :=
  let s' := s.handle e
  if is_new then
    { s' with uncommitted_events := s'.uncommitted_events ++ [e] }
  else s'

/-- `ProductAggregate.release_reservation(cart_id, reason)`.  It never
raises: a missing reservation is an idempotent no-op. -/
def ProductAggregate.release_reservation (s : ProductAggregate) (cart_id : Nat)
    (reason : String) (now : Nat) : ProductAggregate :=
  match alGet s.reservations cart_id with
  | none => s
  | some r =>
      s.apply_event
        (.ProductStockReservationReleased (s.version + 1) now cart_id r.quantity reason)
        true

/-- `ProductAggregate._release_expired_reservations`: collect the cart ids
of expired reservations, then release each with reason `"timeout"`. -/
def ProductAggregate.release_expired (s : ProductAggregate) (now : Nat) :
    ProductAggregate :=
  let expired_carts :=
    (s.reservations.filter (fun p => p.2.is_expired now)).map Prod.fst
  expired_carts.foldl (fun st cid => st.release_reservation cid "timeout" now) s

/-- `ProductAggregate.reserved_stock` property.  Reading it first releases
expired reservations (a state effect), then sums the remaining
quantities; the pair is (value, state of the object afterwards). -/
def ProductAggregate.reserved_stock (s : ProductAggregate) (now : Nat) :
    ℤ × ProductAggregate :=
  let s' := s.release_expired now
  ((s'.reservations.map (fun p => p.2.quantity)).sum, s')

/-- `ProductAggregate.available_stock` property: `total_stock` is read
before the `reserved_stock` property runs (Python evaluates the
subtraction left to right), and the state effect is passed on. -/
def ProductAggregate.available_stock (s : ProductAggregate) (now : Nat) :
    ℤ × ProductAggregate :=
  (s.total_stock - (s.reserved_stock now).1, (s.reserved_stock now).2)

/-- `ProductAggregate.create(name, price, initial_stock, description)`. -/
def ProductAggregate.create (s : ProductAggregate) (name : String) (price : ℚ)
    (initial_stock : ℤ) (description : String) (now : Nat) :
    ProductAggregate × Option String :=
  match s.name with
  | some _ => (s, some "Product already created")
  | none =>
      if price < 0 then (s, some "Price cannot be negative")
      else if initial_stock < 0 then (s, some "Stock cannot be negative")
      else
        (s.apply_event
           (.ProductCreated (s.version + 1) now name price initial_stock description)
           true, none)

/-- `ProductAggregate.reserve_stock(cart_id, quantity, reservation_minutes)`.
Order of effects, as in the source: positivity check, release of expired
reservations, availability check (which re-runs the already-idle expired
sweep inside the `available_stock` property), then the single
`ProductStockReserved` emission with
`reserved_until = now + reservation_minutes`. -/
def ProductAggregate.reserve_stock (s : ProductAggregate) (cart_id : Nat)
    (quantity : ℤ) (reservation_minutes : Nat) (now : Nat) :
    ProductAggregate × Option String :=
  if quantity ≤ 0 then (s, some "Quantity must be positive")
  else
    let s1 := s.release_expired now
    let avail := s1.available_stock now
    if quantity > avail.1 then
      (avail.2, some "Insufficient stock")
    else
      (avail.2.apply_event
         (.ProductStockReserved (avail.2.version + 1) now cart_id quantity
            (now + reservation_minutes))
         true, none)

/-- `ProductAggregate.checkout_reservation(cart_id, order_id)`: release
with reason `"checkout"`, then emit the `ProductStockDecreased` for the
reserved quantity. -/
def ProductAggregate.checkout_reservation (s : ProductAggregate)
    (cart_id order_id : Nat) (now : Nat) : ProductAggregate × Option String :=
  match alGet s.reservations cart_id with
  | none => (s, some "No reservation found for cart")
  | some r =>
      let s1 := s.release_reservation cart_id "checkout" now
      (s1.apply_event
         (.ProductStockDecreased (s1.version + 1) now r.quantity order_id)
         true, none)

/-- `ProductAggregate.increase_stock(quantity)`. -/
def ProductAggregate.increase_stock (s : ProductAggregate) (quantity : ℤ)
    (now : Nat) : ProductAggregate × Option String :=
  if quantity ≤ 0 then (s, some "Quantity must be positive")
  else
    (s.apply_event (.ProductStockIncreased (s.version + 1) now quantity) true, none)

/-- `ProductAggregate.change_price(new_price)`. -/
def ProductAggregate.change_price (s : ProductAggregate) (new_price : ℚ)
    (now : Nat) : ProductAggregate × Option String :=
  if new_price < 0 then (s, some "Price cannot be negative")
  else if new_price = s.price then (s, none)
  else
    (s.apply_event
       (.ProductPriceChanged (s.version + 1) now s.price new_price) true, none)

/-- `ProductAggregate.update_details(name, description)`. -/
def ProductAggregate.update_details (s : ProductAggregate)
    (nameOpt descriptionOpt : Option String) (now : Nat) :
    ProductAggregate × Option String :=
  match nameOpt, descriptionOpt with
  | none, none => (s, none)
  | n, d =>
      (s.apply_event (.ProductUpdated (s.version + 1) now n d) true, none)

/-- One product command with its clock value. -/
inductive ProductCmd where
  | create (name : String) (price : ℚ) (initial_stock : ℤ) (description : String) (now : Nat)
  | reserve_stock (cart_id : Nat) (quantity : ℤ) (reservation_minutes : Nat) (now : Nat)
  | release_reservation (cart_id : Nat) (reason : String) (now : Nat)
  | checkout_reservation (cart_id order_id : Nat) (now : Nat)
  | increase_stock (quantity : ℤ) (now : Nat)
  | change_price (new_price : ℚ) (now : Nat)
  | update_details (nameOpt descriptionOpt : Option String) (now : Nat)
  deriving DecidableEq, Repr

/-- Dispatch one command to the corresponding `ProductAggregate` method. -/
def runProductCmd (s : ProductAggregate) : ProductCmd → ProductAggregate × Option String
  | .create n p st d now => s.create n p st d now
  | .reserve_stock cid q m now => s.reserve_stock cid q m now
  | .release_reservation cid reason now => (s.release_reservation cid reason now, none)
  | .checkout_reservation cid oid now => s.checkout_reservation cid oid now
  | .increase_stock q now => s.increase_stock q now
  | .change_price p now => s.change_price p now
  | .update_details n d now => s.update_details n d now

/-- Run a product command sequence (the object persists across rejected
commands, as in Python). -/
def runProductCmds (s : ProductAggregate) (cs : List ProductCmd) : ProductAggregate :=
  cs.foldl (fun st c => (runProductCmd st c).1) s

/-- `true` when every command is accepted. -/
def productCmdsOk : ProductAggregate → List ProductCmd → Bool
  | _, [] => true
  | s, c :: cs =>
      match runProductCmd s c with
      | (s', none) => productCmdsOk s' cs
      | (_, some _) => false

/-- `ProductEventStore.load_aggregate`: fresh `ProductAggregate(aggregate_id)`
(stamped with the clock at load time) with all events replayed with
`is_new=False`. -/
def loadProductAggregate (product_id : String) (load_now : Nat)
    (events : List ProductEvent) : ProductAggregate :=
  events.foldl (fun st e => st.apply_event e false) (ProductAggregate.init product_id load_now)

/-! ### Event store (`event_store.py`, `product_event_store.py`)

Both stores run the same algorithm over their tables (`cart_events`,
`product_events`); the only differences are the aggregate-id type and the
event payload.  The model keeps, per row, exactly the columns that the
constraints and queries of `save_events` touch: `event_id` (unique),
`aggregate_id`, and `aggregate_version` (unique per aggregate). -/

/-- One persisted row of `cart_events` / `product_events`. -/
structure EventRecord (α : Type) where
  event_id : Nat
  aggregate_id : α
  aggregate_version : Nat
  deriving DecidableEq, Repr

/-- `EventStore._get_current_version`: greatest stored version for the
aggregate, `0` when it has no rows. -/
def storeCurrentVersion {α : Type} [BEq α] (store : List (EventRecord α))
    (aggregate_id : α) : Nat :=
  ((store.filter (fun r => r.aggregate_id == aggregate_id)).map
      (fun r => r.aggregate_version)).foldr max 0

/-- Insert a single row, enforcing the schema of
`app/infrastructure/database.py`: unique `event_id` and unique
`(aggregate_id, aggregate_version)`. -/
def storeInsert {α : Type} [BEq α] (store : List (EventRecord α))
    (r : EventRecord α) : Except String (List (EventRecord α)) :=
  if store.any (fun x => x.event_id == r.event_id) then
    .error "unique constraint violated: event_id"
  else if store.any (fun x =>
      x.aggregate_id == r.aggregate_id && x.aggregate_version == r.aggregate_version) then
    .error "unique constraint violated: aggregate_id, aggregate_version"
  else
    .ok (store ++ [r])

/-- Insert the batch in order; the first violation aborts. -/
def storeInsertAll {α : Type} [BEq α] :
    List (EventRecord α) → List (EventRecord α) → Except String (List (EventRecord α))
  | store, [] => .ok store
  | store, e :: es =>
      match storeInsert store e with
      | .ok s => storeInsertAll s es
      | .error m => .error m

/-- `EventStore.save_events(aggregate_id, events, expected_version)`.
An `Except.error` is the raised `ConcurrencyException`; since the source
rolls the transaction back on `IntegrityError`, the caller's table is
unchanged in that case, which the `Except` shape captures. -/
def save_events {α : Type} [BEq α] (store : List (EventRecord α))
    (aggregate_id : α) (events : List (EventRecord α)) (expected_version : Nat) :
    Except String (List (EventRecord α)) :=
  if events.isEmpty then .ok store
  else if storeCurrentVersion store aggregate_id ≠ expected_version then
    .error "Concurrency conflict: version mismatch"
  else
    match storeInsertAll store events with
    | .ok s2 => .ok s2
    | .error m => .error ("Concurrency conflict detected when saving events: " ++ m)

/-- The batch, inserted left to right, hits the
`(aggregate_id, aggregate_version)` unique constraint: some event
collides with an already-stored row or with an earlier event of the same
batch. -/
def hasVersionCollision {α : Type} [BEq α] :
    List (EventRecord α) → List (EventRecord α) → Bool
  | _, [] => false
  | store, e :: es =>
      store.any (fun x =>
        x.aggregate_id == e.aggregate_id && x.aggregate_version == e.aggregate_version)
      || hasVersionCollision (store ++ [e]) es

/-- The batch's `event_id`s are fresh for the table and pairwise distinct
(the source draws them from `uuid4()`). -/
def freshEventIds {α : Type} (store events : List (EventRecord α)) : Prop :=
  (∀ e ∈ events, ∀ x ∈ store, x.event_id ≠ e.event_id) ∧
  (events.map (fun e => e.event_id)).Nodup

/-! ### Read-model projection (`add_item.py _update_read_model`) -/

/-- One row of the `items` JSON array written into `cart_read_model`. -/
structure ProjectedItem where
  product_id : String
  product_name : String
  price : ℚ
  quantity : ℤ
  total_price : ℚ
  deriving DecidableEq, Repr

/-- The list comprehension of `AddItemToCartUseCase._update_read_model`:
the projected item rows are taken verbatim from the aggregate's items. -/
def projectItems (s : CartAggregate) : List ProjectedItem :=
  s.items.map (fun p =>
    { product_id := p.2.product_id, product_name := p.2.product_name,
      price := p.2.price, quantity := p.2.quantity,
      total_price := p.2.total_price })

/-! ### Emission relation

Every state change in both aggregates flows through `apply_event` with
`is_new=True`, and every event is built with `aggregate_version =
self.version + 1` read at emission time.  The relations below record
exactly that; the command methods are proved to respect them, and the
replay/version theorems are induction over them. -/

/-- `t` is reached from `s` by emitting (applying with `is_new=True`)
events stamped `version + 1` at their emission point. -/
inductive CartEmits : CartAggregate → CartAggregate → Prop where
  | refl (s : CartAggregate) : CartEmits s s
  | step {s t : CartAggregate} (e : CartEvent)
      (hv : e.aggregate_version = t.version + 1) (h : CartEmits s t) :
      CartEmits s (t.apply_event e true)

/-- Product-side emission relation. -/
inductive ProductEmits : ProductAggregate → ProductAggregate → Prop where
  | refl (s : ProductAggregate) : ProductEmits s s
  | step {s t : ProductAggregate} (e : ProductEvent)
      (hv : e.aggregate_version = t.version + 1) (h : ProductEmits s t) :
      ProductEmits s (t.apply_event e true)

/-- Forget the uncommitted-events buffer (the only field `load_aggregate`
replay cannot see). -/
def CartAggregate.strip (s : CartAggregate) : CartAggregate :=
  { s with uncommitted_events := [] }

/-- The observable product fields named by the replay law: `total_stock`,
`reservations`, `version`. -/
def ProductAggregate.obs (s : ProductAggregate) :
    ℤ × List (Nat × StockReservation) × Nat :=
  (s.total_stock, s.reservations, s.version)

/-- The product fields the expired sweep never touches (everything except
`reservations`, `version` and the uncommitted buffer). -/
def ProductAggregate.frame (s : ProductAggregate) :
    String × Option String × ℚ × String × ℤ × Option Nat :=
  (s.product_id, s.name, s.price, s.description, s.total_stock, s.created_at)

/-- The events a call appended to the uncommitted buffer: the buffer of
the post-state minus the pre-state's prefix. -/
def ProductAggregate.newEvents (s t : ProductAggregate) : List ProductEvent :=
  t.uncommitted_events.drop s.uncommitted_events.length

/-- Is the event a `ProductCreated`? (the one handler that overwrites
`total_stock` instead of shifting it). -/
def ProductEvent.isCreated : ProductEvent → Bool
  | .ProductCreated _ _ _ _ _ _ => true
  | _ => false

/-- Is the event a `ProductStockReservationReleased` for the given cart? -/
def ProductEvent.isReleasedFor (cart_id : Nat) : ProductEvent → Bool
  | .ProductStockReservationReleased _ _ c _ _ => c == cart_id
  | _ => false

/-- Is the event a `ProductStockReservationReleased` with reason `"timeout"`? -/
def ProductEvent.isTimeoutRelease : ProductEvent → Bool
  | .ProductStockReservationReleased _ _ _ _ reason => reason == "timeout"
  | _ => false

/-- The reservations `_release_expired_reservations` sweeps (the entries
whose `is_expired()` holds), in dict order. -/
def expiredEntries (s : ProductAggregate) (now : Nat) :
    List (Nat × StockReservation) :=
  s.reservations.filter (fun p => p.2.is_expired now)

/-- The `ProductStockReservationReleased(reason="timeout")` events the
expired sweep emits for the listed reservations, versions counting up
from `v0 + 1`. -/
def timeoutEvents (v0 now : Nat) : List (Nat × StockReservation) → List ProductEvent
  | [] => []
  | (cid, r) :: rest =>
      .ProductStockReservationReleased (v0 + 1) now cid r.quantity "timeout"
        :: timeoutEvents (v0 + 1) now rest

/-- Signed effect of one event on `total_stock`: only the
`_apply_ProductStockIncreased` / `_apply_ProductStockDecreased` handlers
move it (`ProductCreated` is excluded separately: it overwrites the field
on a fresh aggregate). -/
def ProductEvent.stockDelta : ProductEvent → ℤ
  | .ProductStockIncreased _ _ q => q
  | .ProductStockDecreased _ _ q _ => -q
  | _ => 0

/-- The three reservation-flow commands of claim C3. -/
def ProductCmd.isStockOp : ProductCmd → Bool
  | .reserve_stock _ _ _ _ => true
  | .release_reservation _ _ _ => true
  | .checkout_reservation _ _ _ => true
  | _ => false

/-! ### Concrete inputs used by the witnesses -/

/-- Cart scenario: create, two adds, a remove, a checkout. -/
def cartCmdsW : List CartCmd :=
  [.create "user_123" 0, .add_item "P001" "Laptop" 5 2 1,
   .add_item "P002" "Mouse" 3 1 2, .remove_item "P002" 3, .checkout 42 4]

/-- Product scenario: create, two reservations, checkout of one, release
of the other. -/
def prodCmdsW : List ProductCmd :=
  [.create "Laptop" 5 10 "" 0, .reserve_stock 1 2 15 1, .reserve_stock 2 3 15 2,
   .checkout_reservation 1 7 3, .release_reservation 2 "released" 4]

/-- Product with stock 10 and two reservations: cart 1 until instant 15,
cart 2 until instant 16.  At `now = 16` the first is expired, the second
still active. -/
def sampleProduct : ProductAggregate :=
  runProductCmds (ProductAggregate.init "P001" 0)
    [.create "Laptop" 5 10 "" 0, .reserve_stock 1 2 15 0, .reserve_stock 2 3 15 1]

/-- Cart after adding the same product twice with different price/name
(scenario of claim C4). -/
def c4cart : CartAggregate :=
  runCartCmds (CartAggregate.init 1)
    [.create "user_123" 0, .add_item "P001" "Laptop" 10 1 1,
     .add_item "P001" "Laptop Pro" 20 2 2]

/-- A checked-out cart (for the guard claims). -/
def checkedOutCartW : CartAggregate :=
  runCartCmds (CartAggregate.init 2)
    [.create "u" 0, .add_item "P001" "A" 5 1 1, .checkout 9 2]

/-- A pending cart with no items. -/
def emptyPendingCartW : CartAggregate :=
  ((CartAggregate.init 3).create "u" 0).1

/-- A small stored table for aggregate `"P001"` (versions 1 and 2). -/
def storeW : List (EventRecord String) :=
  [{ event_id := 1, aggregate_id := "P001", aggregate_version := 1 },
   { event_id := 2, aggregate_id := "P001", aggregate_version := 2 }]

/-- A well-versioned batch continuing `storeW`. -/
def eventsW : List (EventRecord String) :=
  [{ event_id := 3, aggregate_id := "P001", aggregate_version := 3 },
   { event_id := 4, aggregate_id := "P001", aggregate_version := 4 }]

/-- A batch whose version collides with a stored row. -/
def eventsBadW : List (EventRecord String) :=
  [{ event_id := 5, aggregate_id := "P001", aggregate_version := 2 }]

/-! ### Association-list lemmas -/

theorem alGet_eq_none_iff {κ β : Type} [BEq κ] [LawfulBEq κ]
    (l : List (κ × β)) (k : κ) :
    alGet l k = none ↔ ∀ p ∈ l, p.1 ≠ k := by
  simp [alGet, List.find?_eq_none]

theorem alGet_cons {κ β : Type} [BEq κ] (p : κ × β) (l : List (κ × β)) (k : κ) :
    alGet (p :: l) k = if p.1 == k then some p.2 else alGet l k := by
  by_cases h : p.1 == k <;> simp [alGet, List.find?_cons, h]

theorem alErase_cons {κ β : Type} [BEq κ] (p : κ × β) (l : List (κ × β)) (k : κ) :
    alErase (p :: l) k =
      if p.1 == k then alErase l k else p :: alErase l k := by
  by_cases h : p.1 == k <;> simp [alErase, List.filter_cons, h]

theorem alGet_of_mem {κ β : Type} [BEq κ] [LawfulBEq κ]
    {l : List (κ × β)} (h : alNodup l) {p : κ × β} (hp : p ∈ l) :
    alGet l p.1 = some p.2 := by
  induction l with
  | nil => cases hp
  | cons q l ih =>
      rcases List.nodup_cons.mp h with ⟨hq, h'⟩
      rcases List.mem_cons.mp hp with he | hp'
      · subst he
        simp [alGet_cons]
      · have hne : ¬ (q.1 == p.1) := by
          simp only [beq_iff_eq]
          intro he
          exact hq (he ▸ List.mem_map_of_mem Prod.fst hp')
        rw [alGet_cons, if_neg (by simp [hne]), ih h' hp']

theorem mem_key_unique {κ β : Type} {l : List (κ × β)} (h : alNodup l)
    {p q : κ × β} (hp : p ∈ l) (hq : q ∈ l) (hk : p.1 = q.1) : p = q := by
  induction l with
  | nil => cases hp
  | cons a l ih =>
      rcases List.nodup_cons.mp h with ⟨ha, h'⟩
      rcases List.mem_cons.mp hp with he | hp' <;>
        rcases List.mem_cons.mp hq with he2 | hq'
      · rw [he, he2]
      · subst he
        exact absurd (hk ▸ List.mem_map_of_mem Prod.fst hq') ha
      · subst he2
        exact absurd (hk ▸ List.mem_map_of_mem Prod.fst hp') ha
      · exact ih h' hp' hq'

theorem alGet_alErase_ne {κ β : Type} [BEq κ] [LawfulBEq κ]
    (l : List (κ × β)) {k k' : κ} (h : k' ≠ k) :
    alGet (alErase l k) k' = alGet l k' := by
  induction l with
  | nil => rfl
  | cons p l ih =>
      rw [alErase_cons]
      by_cases hp : p.1 == k
      · have hp' : ¬ (p.1 == k') := by
          simp only [beq_iff_eq] at hp ⊢
          rw [hp]
          exact fun he => h he.symm
        rw [if_pos hp, alGet_cons, if_neg (by simp_all), ih]
      · rw [if_neg (by simp_all), alGet_cons, alGet_cons]
        by_cases hq : p.1 == k'
        · rw [if_pos hq, if_pos hq]
        · rw [if_neg (by simp_all), if_neg (by simp_all), ih]

theorem alGet_alErase_self {κ β : Type} [BEq κ] [LawfulBEq κ]
    (l : List (κ × β)) (k : κ) : alGet (alErase l k) k = none := by
  rw [alGet_eq_none_iff]
  intro p hp
  have := List.of_mem_filter hp
  simpa using this

theorem alNodup_alErase {κ β : Type} [BEq κ] (l : List (κ × β)) (k : κ)
    (h : alNodup l) : alNodup (alErase l k) := by
  have hs : (alErase l k).Sublist l := List.filter_sublist l
  have : ((alErase l k).map Prod.fst).Sublist (l.map Prod.fst) := hs.map Prod.fst
  exact h.sublist this

theorem alNodup_alSet {κ β : Type} [BEq κ] [LawfulBEq κ] (l : List (κ × β))
    (k : κ) (v : β) (h : alNodup l) : alNodup (alSet l k v) := by
  unfold alSet
  split
  · have : (l.map (fun p => if p.1 == k then (p.1, v) else p)).map Prod.fst
        = l.map Prod.fst := by
      rw [List.map_map]
      apply List.map_congr_left
      intro p _
      by_cases hp : p.1 = k <;> simp [hp]
    simpa [alNodup, this] using h
  · next hne =>
      rw [alNodup, List.map_append, List.nodup_append]
      refine ⟨h, by simp, ?_⟩
      intro a ha
      simp only [List.map_cons, List.map_nil, List.mem_singleton]
      intro hk
      subst hk
      rcases List.mem_map.mp ha with ⟨p, hp, hpk⟩
      rw [List.any_eq_true] at hne
      exact hne ⟨p, hp, by simp [hpk]⟩

/-! ### Cart aggregate: basic step lemmas -/

theorem range_one_concat (s n : Nat) :
    List.range' s (n + 1) = List.range' s n ++ [s + n] := by
  induction n generalizing s with
  | zero => rfl
  | succ n ih =>
      have h1 : List.range' s (n + 2) = s :: List.range' (s + 1) (n + 1) := rfl
      have h2 : List.range' s (n + 1) = s :: List.range' (s + 1) n := rfl
      rw [h1, h2, ih (s + 1), (by omega : s + 1 + n = s + (n + 1))]
      rfl

theorem cart_handle_uncommitted (s : CartAggregate) (e : CartEvent) :
    (s.handle e).uncommitted_events = s.uncommitted_events := by
  cases e <;> rfl

theorem cart_handle_version (s : CartAggregate) (e : CartEvent) :
    (s.handle e).version = e.aggregate_version := by
  cases e <;> rfl

theorem cart_handle_strip (s : CartAggregate) (e : CartEvent) :
    (s.strip).handle e = (s.handle e).strip := by
  cases e <;> rfl

theorem cart_apply_true_uncommitted (s : CartAggregate) (e : CartEvent) :
    (s.apply_event e true).uncommitted_events = s.uncommitted_events ++ [e] := by
  simp [CartAggregate.apply_event, cart_handle_uncommitted]

theorem cart_apply_version (s : CartAggregate) (e : CartEvent) (b : Bool) :
    (s.apply_event e b).version = e.aggregate_version := by
  cases b <;> simp [CartAggregate.apply_event, cart_handle_version]

theorem cart_apply_false_strip (s : CartAggregate) (e : CartEvent) :
    (s.strip).apply_event e false = (s.apply_event e true).strip := by
  simp [CartAggregate.apply_event, cart_handle_strip]
  cases e <;> rfl

theorem cartEmits_trans {s t u : CartAggregate}
    (h1 : CartEmits s t) (h2 : CartEmits t u) : CartEmits s u := by
  induction h2 with
  | refl => exact h1
  | step e hv h ih => exact .step e hv ih

theorem cartEmits_runCmd (s : CartAggregate) (c : CartCmd) :
    CartEmits s (runCartCmd s c).1 := by
  have hstep : ∀ (e : CartEvent), e.aggregate_version = s.version + 1 →
      CartEmits s (s.apply_event e true) :=
    fun e hv => .step e hv (.refl s)
  cases c with
  | create uid now =>
      simp only [runCartCmd, CartAggregate.create]
      cases s.user_id <;> simp
      · exact hstep _ rfl
      · exact .refl s
  | add_item pid pname price qty now =>
      simp only [runCartCmd, CartAggregate.add_item]
      split
      · exact .refl s
      · split
        · exact .refl s
        · split
          · exact .refl s
          · exact hstep _ rfl
  | remove_item pid now =>
      simp only [runCartCmd, CartAggregate.remove_item]
      split
      · exact .refl s
      · split
        · exact .refl s
        · exact hstep _ rfl
  | change_quantity pid newq now =>
      simp only [runCartCmd, CartAggregate.change_quantity]
      split
      · exact .refl s
      · split
        · exact .refl s
        · split
          · exact .refl s
          · exact hstep _ rfl
  | checkout oid now =>
      simp only [runCartCmd, CartAggregate.checkout]
      split
      · exact .refl s
      · split
        · exact .refl s
        · exact hstep _ rfl
  | expire reason now =>
      simp only [runCartCmd, CartAggregate.expire]
      split
      · exact .refl s
      · exact hstep _ rfl

theorem cartEmits_runCmds (s : CartAggregate) (cs : List CartCmd) :
    CartEmits s (runCartCmds s cs) := by
  induction cs generalizing s with
  | nil => exact .refl s
  | cons c cs ih =>
      exact cartEmits_trans (cartEmits_runCmd s c)
        (by simpa [runCartCmds] using ih (runCartCmd s c).1)

theorem cart_replay_of_emits {s t : CartAggregate} (cid : Nat)
    (h : CartEmits s t)
    (hs : loadCartAggregate cid s.uncommitted_events = s.strip) :
    loadCartAggregate cid t.uncommitted_events = t.strip := by
  induction h with
  | refl => exact hs
  | step e hv h ih =>
      rename_i t'
      rw [cart_apply_true_uncommitted, loadCartAggregate, List.foldl_append]
      simp only [List.foldl_cons, List.foldl_nil]
      rw [show List.foldl (fun st e => st.apply_event e false)
            (CartAggregate.init cid) t'.uncommitted_events
          = loadCartAggregate cid t'.uncommitted_events from rfl, ih,
        cart_apply_false_strip]

theorem cart_version_of_emits {s t : CartAggregate}
    (h : CartEmits s t)
    (hs : s.version = s.uncommitted_events.length ∧
      s.uncommitted_events.map CartEvent.aggregate_version
        = List.range' 1 s.uncommitted_events.length) :
    t.version = t.uncommitted_events.length ∧
      t.uncommitted_events.map CartEvent.aggregate_version
        = List.range' 1 t.uncommitted_events.length := by
  induction h with
  | refl => exact hs
  | step e hv h ih =>
      rename_i t'
      rcases ih with ⟨h1, h2⟩
      rw [cart_apply_true_uncommitted]
      constructor
      · rw [cart_apply_version]
        simp [hv, h1]
      · rw [List.map_append, h2, List.length_append]
        have := range_one_concat 1 t'.uncommitted_events.length
        simp [this, hv, h1, Nat.add_comm]

/-! ### Product aggregate: basic step lemmas -/

theorem product_handle_uncommitted (s : ProductAggregate) (e : ProductEvent) :
    (s.handle e).uncommitted_events = s.uncommitted_events := by
  cases e <;> rfl

theorem product_handle_version (s : ProductAggregate) (e : ProductEvent) :
    (s.handle e).version = e.aggregate_version := by
  cases e <;> rfl

theorem product_apply_true_uncommitted (s : ProductAggregate) (e : ProductEvent) :
    (s.apply_event e true).uncommitted_events = s.uncommitted_events ++ [e] := by
  simp [ProductAggregate.apply_event, product_handle_uncommitted]

theorem product_apply_version (s : ProductAggregate) (e : ProductEvent) (b : Bool) :
    (s.apply_event e b).version = e.aggregate_version := by
  cases b <;> simp [ProductAggregate.apply_event, product_handle_version]

theorem product_obs_handle {s t : ProductAggregate} (e : ProductEvent)
    (h : s.obs = t.obs) : (s.handle e).obs = (t.handle e).obs := by
  simp only [ProductAggregate.obs, Prod.mk.injEq] at h
  obtain ⟨h1, h2, h3⟩ := h
  cases e <;> simp_all [ProductAggregate.handle, ProductAggregate.obs]

theorem product_obs_apply_false_true (s t : ProductAggregate) (e : ProductEvent)
    (h : s.obs = t.obs) : (s.apply_event e false).obs = (t.apply_event e true).obs := by
  have := product_obs_handle e h
  simpa [ProductAggregate.apply_event, ProductAggregate.obs] using this

theorem productEmits_trans {s t u : ProductAggregate}
    (h1 : ProductEmits s t) (h2 : ProductEmits t u) : ProductEmits s u := by
  induction h2 with
  | refl => exact h1
  | step e hv h ih => exact .step e hv ih

theorem productEmits_release (s : ProductAggregate) (cid : Nat)
    (reason : String) (now : Nat) :
    ProductEmits s (s.release_reservation cid reason now) := by
  unfold ProductAggregate.release_reservation
  cases alGet s.reservations cid with
  | none => exact .refl s
  | some r => exact .step _ rfl (.refl s)

theorem productEmits_releaseFold (ks : List Nat) (s : ProductAggregate)
    (reason : String) (now : Nat) :
    ProductEmits s
      (ks.foldl (fun st cid => st.release_reservation cid reason now) s) := by
  induction ks generalizing s with
  | nil => exact .refl s
  | cons k ks ih =>
      simp only [List.foldl_cons]
      exact productEmits_trans (productEmits_release s k reason now)
        (ih (s.release_reservation k reason now))

theorem productEmits_release_expired (s : ProductAggregate) (now : Nat) :
    ProductEmits s (s.release_expired now) :=
  productEmits_releaseFold _ s "timeout" now

theorem productEmits_reserved_stock (s : ProductAggregate) (now : Nat) :
    ProductEmits s (s.reserved_stock now).2 :=
  productEmits_release_expired s now

theorem productEmits_available_stock (s : ProductAggregate) (now : Nat) :
    ProductEmits s (s.available_stock now).2 :=
  productEmits_release_expired s now

theorem productEmits_runCmd (s : ProductAggregate) (c : ProductCmd) :
    ProductEmits s (runProductCmd s c).1 := by
  have hstep : ∀ (t : ProductAggregate) (e : ProductEvent),
      ProductEmits s t → e.aggregate_version = t.version + 1 →
      ProductEmits s (t.apply_event e true) :=
    fun t e h hv => .step e hv h
  cases c with
  | create n p st d now =>
      simp only [runProductCmd, ProductAggregate.create]
      cases s.name <;> simp
      · split
        · exact .refl s
        · split
          · exact .refl s
          · exact hstep s _ (.refl s) rfl
      · exact .refl s
  | reserve_stock cid q m now =>
      simp only [runProductCmd, ProductAggregate.reserve_stock]
      split
      · exact .refl s
      · split
        · exact productEmits_trans (productEmits_release_expired s now)
            (productEmits_available_stock _ now)
        · exact hstep _ _
            (productEmits_trans (productEmits_release_expired s now)
              (productEmits_available_stock _ now)) rfl
  | release_reservation cid reason now =>
      exact productEmits_release s cid reason now
  | checkout_reservation cid oid now =>
      simp only [runProductCmd, ProductAggregate.checkout_reservation]
      cases alGet s.reservations cid with
      | none => exact .refl s
      | some r =>
          exact hstep _ _ (productEmits_release s cid "checkout" now) rfl
  | increase_stock q now =>
      simp only [runProductCmd, ProductAggregate.increase_stock]
      split
      · exact .refl s
      · exact hstep s _ (.refl s) rfl
  | change_price p now =>
      simp only [runProductCmd, ProductAggregate.change_price]
      split
      · exact .refl s
      · split
        · exact .refl s
        · exact hstep s _ (.refl s) rfl
  | update_details n d now =>
      simp only [runProductCmd, ProductAggregate.update_details]
      split
      · exact .refl s
      · exact hstep s _ (.refl s) rfl

theorem productEmits_runCmds (s : ProductAggregate) (cs : List ProductCmd) :
    ProductEmits s (runProductCmds s cs) := by
  induction cs generalizing s with
  | nil => exact .refl s
  | cons c cs ih =>
      exact productEmits_trans (productEmits_runCmd s c)
        (by simpa [runProductCmds] using ih (runProductCmd s c).1)

theorem product_replay_of_emits {s t : ProductAggregate} (pid : String)
    (load_now : Nat) (h : ProductEmits s t)
    (hs : (loadProductAggregate pid load_now s.uncommitted_events).obs = s.obs) :
    (loadProductAggregate pid load_now t.uncommitted_events).obs = t.obs := by
  induction h with
  | refl => exact hs
  | step e hv h ih =>
      rename_i t'
      rw [product_apply_true_uncommitted, loadProductAggregate, List.foldl_append]
      simp only [List.foldl_cons, List.foldl_nil]
      exact product_obs_apply_false_true _ _ e ih

theorem product_version_of_emits {s t : ProductAggregate}
    (h : ProductEmits s t)
    (hs : s.version = s.uncommitted_events.length ∧
      s.uncommitted_events.map ProductEvent.aggregate_version
        = List.range' 1 s.uncommitted_events.length) :
    t.version = t.uncommitted_events.length ∧
      t.uncommitted_events.map ProductEvent.aggregate_version
        = List.range' 1 t.uncommitted_events.length := by
  induction h with
  | refl => exact hs
  | step e hv h ih =>
      rename_i t'
      rcases ih with ⟨h1, h2⟩
      rw [product_apply_true_uncommitted]
      constructor
      · rw [product_apply_version]
        simp [hv, h1]
      · rw [List.map_append, h2, List.length_append]
        have := range_one_concat 1 t'.uncommitted_events.length
        simp [this, hv, h1, Nat.add_comm]

/-! ### The expired-reservation sweep, characterized -/

theorem release_none_eq (s : ProductAggregate) (cid : Nat) (reason : String)
    (now : Nat) (h : alGet s.reservations cid = none) :
    s.release_reservation cid reason now = s := by
  simp [ProductAggregate.release_reservation, h]

theorem release_some_eq (s : ProductAggregate) (cid : Nat) (r : StockReservation)
    (reason : String) (now : Nat) (h : alGet s.reservations cid = some r) :
    s.release_reservation cid reason now =
      { s with reservations := alErase s.reservations cid,
               version := s.version + 1,
               uncommitted_events := s.uncommitted_events ++
                 [.ProductStockReservationReleased (s.version + 1) now cid
                    r.quantity reason] } := by
  simp [ProductAggregate.release_reservation, h, ProductAggregate.apply_event,
    ProductAggregate.handle]

theorem release_fold_spec (now : Nat) (es : List (Nat × StockReservation)) :
    ∀ (s : ProductAggregate), alNodup s.reservations →
    (es.map Prod.fst).Nodup →
    (∀ p ∈ es, alGet s.reservations p.1 = some p.2) →
    ((es.map Prod.fst).foldl
        (fun st cid => st.release_reservation cid "timeout" now) s).reservations
        = s.reservations.filter (fun p => !((es.map Prod.fst).contains p.1)) ∧
    ((es.map Prod.fst).foldl
        (fun st cid => st.release_reservation cid "timeout" now) s).version
        = s.version + es.length ∧
    ((es.map Prod.fst).foldl
        (fun st cid => st.release_reservation cid "timeout" now) s).uncommitted_events
        = s.uncommitted_events ++ timeoutEvents s.version now es ∧
    ((es.map Prod.fst).foldl
        (fun st cid => st.release_reservation cid "timeout" now) s).frame
        = s.frame := by
  induction es with
  | nil =>
      intro s _ _ _
      refine ⟨?_, rfl, by simp [timeoutEvents], rfl⟩
      simp [List.filter_eq_self.mpr]
  | cons hd rest ih =>
      intro s hnd hknd hget
      obtain ⟨cid, r⟩ := hd
      have hhd : alGet s.reservations cid = some r := hget (cid, r) (by simp)
      simp only [List.map_cons, List.foldl_cons]
      rw [release_some_eq s cid r "timeout" now hhd]
      set ev : ProductEvent :=
        .ProductStockReservationReleased (s.version + 1) now cid r.quantity "timeout"
        with hev
      have hrest : ∀ p ∈ rest,
          alGet (alErase s.reservations cid) p.1 = some p.2 := by
        intro p hp
        have hne : p.1 ≠ cid := by
          intro he
          have : cid ∈ rest.map Prod.fst := he ▸ List.mem_map_of_mem Prod.fst hp
          exact (List.nodup_cons.mp hknd).1 (by simpa using this)
        rw [alGet_alErase_ne _ hne]
        exact hget p (by simp [hp])
      obtain ⟨h1, h2, h3, h4⟩ := ih
        { s with reservations := alErase s.reservations cid,
                 version := s.version + 1,
                 uncommitted_events := s.uncommitted_events ++ [ev] }
        (alNodup_alErase _ _ hnd) (List.nodup_cons.mp hknd).2 hrest
      have hres : (alErase s.reservations cid).filter
            (fun p => !((rest.map Prod.fst).contains p.1))
          = s.reservations.filter
            (fun p => !((cid :: rest.map Prod.fst).contains p.1)) := by
        rw [alErase, List.filter_filter]
        apply List.filter_congr
        intro p _
        show (!List.contains (rest.map Prod.fst) p.1 && !(p.1 == cid))
          = !((cid :: rest.map Prod.fst).contains p.1)
        simp only [List.contains_cons]
        rw [Bool.not_or, Bool.and_comm]
      refine ⟨?_, ?_, ?_, ?_⟩
      · rw [h1]
        exact hres
      · rw [h2]
        show s.version + 1 + rest.length = s.version + (rest.length + 1)
        omega
      · rw [h3]
        show s.uncommitted_events ++ [ev] ++ timeoutEvents (s.version + 1) now rest
          = s.uncommitted_events ++ timeoutEvents s.version now ((cid, r) :: rest)
        simp [timeoutEvents, hev]
      · rw [h4]
        rfl

theorem release_expired_spec (s : ProductAggregate) (now : Nat)
    (h : alNodup s.reservations) :
    (s.release_expired now).reservations
        = s.reservations.filter (fun p => !(p.2.is_expired now)) ∧
    (s.release_expired now).version
        = s.version + (expiredEntries s now).length ∧
    (s.release_expired now).uncommitted_events
        = s.uncommitted_events ++ timeoutEvents s.version now (expiredEntries s now) ∧
    (s.release_expired now).frame = s.frame := by
  have hknd : ((expiredEntries s now).map Prod.fst).Nodup := by
    have hs : ((expiredEntries s now).map Prod.fst).Sublist
        (s.reservations.map Prod.fst) := (List.filter_sublist _).map Prod.fst
    exact h.sublist hs
  have hget : ∀ p ∈ expiredEntries s now, alGet s.reservations p.1 = some p.2 :=
    fun p hp => alGet_of_mem h (List.mem_of_mem_filter hp)
  have hfold := release_fold_spec now (expiredEntries s now) s h hknd hget
  have h0 : s.release_expired now
      = ((expiredEntries s now).map Prod.fst).foldl
          (fun st cid => st.release_reservation cid "timeout" now) s := rfl
  have hfilt : s.reservations.filter
        (fun p => !((expiredEntries s now).map Prod.fst).contains p.1)
      = s.reservations.filter (fun p => !(p.2.is_expired now)) := by
    apply List.filter_congr
    intro p hp
    have hiff : ((expiredEntries s now).map Prod.fst).contains p.1
        = p.2.is_expired now := by
      by_cases hexp : p.2.is_expired now = true
      · rw [hexp]
        refine List.elem_eq_true_of_mem (List.mem_map_of_mem Prod.fst ?_)
        simp only [expiredEntries]
        exact List.mem_filter.mpr ⟨hp, hexp⟩
      · rw [Bool.eq_false_iff.mpr hexp]
        apply Bool.eq_false_iff.mpr
        intro hc
        have hc' : p.1 ∈ (expiredEntries s now).map Prod.fst :=
          List.mem_of_elem_eq_true hc
        rcases List.mem_map.mp hc' with ⟨q, hq, hqk⟩
        simp only [expiredEntries] at hq
        have hqmem : q ∈ s.reservations := List.mem_of_mem_filter hq
        have hpq : p = q := mem_key_unique h hp hqmem hqk.symm
        have hqexp := List.of_mem_filter hq
        rw [← hpq] at hqexp
        exact hexp hqexp
    rw [hiff]
  obtain ⟨h1, h2, h3, h4⟩ := hfold
  rw [h0]
  exact ⟨by rw [h1, hfilt], h2, h3, h4⟩

theorem alNodup_release_expired (s : ProductAggregate) (now : Nat)
    (h : alNodup s.reservations) :
    alNodup (s.release_expired now).reservations := by
  rw [(release_expired_spec s now h).1]
  exact h.sublist ((List.filter_sublist _).map Prod.fst)

theorem expiredEntries_release_expired (s : ProductAggregate) (now : Nat)
    (h : alNodup s.reservations) :
    expiredEntries (s.release_expired now) now = [] := by
  rw [expiredEntries, (release_expired_spec s now h).1, List.filter_filter]
  rw [show (fun (p : Nat × StockReservation) =>
      p.2.is_expired now && !(p.2.is_expired now)) = fun _ => false by
    funext p
    cases p.2.is_expired now <;> rfl]
  exact List.filter_false _

theorem release_expired_of_no_expired (s : ProductAggregate) (now : Nat)
    (h : expiredEntries s now = []) : s.release_expired now = s := by
  rw [ProductAggregate.release_expired]
  rw [show s.reservations.filter (fun p => p.2.is_expired now)
      = expiredEntries s now from rfl, h]
  rfl

theorem release_expired_idem (s : ProductAggregate) (now : Nat)
    (h : alNodup s.reservations) :
    (s.release_expired now).release_expired now = s.release_expired now :=
  release_expired_of_no_expired _ now (expiredEntries_release_expired s now h)

theorem reserved_stock_spec (s : ProductAggregate) (now : Nat)
    (h : alNodup s.reservations) :
    s.reserved_stock now =
      (((s.reservations.filter (fun p => !(p.2.is_expired now))).map
          (fun p => p.2.quantity)).sum,
       s.release_expired now) := by
  rw [ProductAggregate.reserved_stock, (release_expired_spec s now h).1]

theorem available_stock_spec (s : ProductAggregate) (now : Nat)
    (h : alNodup s.reservations) :
    s.available_stock now =
      (s.total_stock -
         ((s.reservations.filter (fun p => !(p.2.is_expired now))).map
            (fun p => p.2.quantity)).sum,
       s.release_expired now) := by
  rw [ProductAggregate.available_stock, reserved_stock_spec s now h]

theorem available_after_sweep (s : ProductAggregate) (now : Nat)
    (h : alNodup s.reservations) :
    (s.release_expired now).available_stock now =
      (s.total_stock -
         ((s.reservations.filter (fun p => !(p.2.is_expired now))).map
            (fun p => p.2.quantity)).sum,
       s.release_expired now) := by
  rw [available_stock_spec _ now (alNodup_release_expired s now h),
    release_expired_idem s now h, (release_expired_spec s now h).1]
  have hts : (s.release_expired now).total_stock = s.total_stock := by
    have h4 := (release_expired_spec s now h).2.2.2
    simp only [ProductAggregate.frame, Prod.ext_iff] at h4
    exact h4.2.2.2.2.1
  rw [hts, List.filter_filter]
  rw [show (fun (p : Nat × StockReservation) =>
      !(p.2.is_expired now) && !(p.2.is_expired now))
      = fun p => !(p.2.is_expired now) by
    funext p
    cases p.2.is_expired now <;> rfl]

theorem reserve_stock_spec (s : ProductAggregate) (cart_id : Nat)
    (quantity : ℤ) (rm now : Nat) (h : alNodup s.reservations)
    (hq : 0 < quantity) :
    s.reserve_stock cart_id quantity rm now =
      (if quantity > s.total_stock -
            ((s.reservations.filter (fun p => !(p.2.is_expired now))).map
               (fun p => p.2.quantity)).sum
       then (s.release_expired now, some "Insufficient stock")
       else ((s.release_expired now).apply_event
               (.ProductStockReserved ((s.release_expired now).version + 1) now
                  cart_id quantity (now + rm)) true, none)) := by
  rw [ProductAggregate.reserve_stock]
  rw [if_neg (by omega)]
  simp only [available_after_sweep s now h]

/-! ### More sweep facts and nodup preservation -/

theorem timeoutEvents_length (v0 now : Nat) (es : List (Nat × StockReservation)) :
    (timeoutEvents v0 now es).length = es.length := by
  induction es generalizing v0 with
  | nil => rfl
  | cons hd rest ih =>
      obtain ⟨cid, r⟩ := hd
      simp [timeoutEvents, ih]

theorem timeoutEvents_stockDelta (v0 now : Nat)
    (es : List (Nat × StockReservation)) :
    ((timeoutEvents v0 now es).map ProductEvent.stockDelta).sum = 0 := by
  induction es generalizing v0 with
  | nil => rfl
  | cons hd rest ih =>
      obtain ⟨cid, r⟩ := hd
      simp [timeoutEvents, ProductEvent.stockDelta, ih]

theorem timeoutEvents_all_timeout (v0 now : Nat)
    (es : List (Nat × StockReservation)) :
    ∀ e ∈ timeoutEvents v0 now es, e.isTimeoutRelease = true := by
  induction es generalizing v0 with
  | nil => intro e he; cases he
  | cons hd rest ih =>
      obtain ⟨cid, r⟩ := hd
      intro e he
      rcases List.mem_cons.mp he with he | he
      · rw [he]; rfl
      · exact ih (v0 + 1) e he

theorem alNodup_apply_event (s : ProductAggregate) (e : ProductEvent) (b : Bool)
    (h : alNodup s.reservations) : alNodup (s.apply_event e b).reservations := by
  have hh : (s.apply_event e b).reservations = (s.handle e).reservations := by
    cases b <;> rfl
  rw [hh]
  cases e with
  | ProductStockReserved v t cid qty ru =>
      exact alNodup_alSet _ _ _ h
  | ProductStockReservationReleased v t cid q reason =>
      exact alNodup_alErase _ _ h
  | ProductCreated v t n p st d => exact h
  | ProductStockIncreased v t q => exact h
  | ProductStockDecreased v t q oid => exact h
  | ProductPriceChanged v t po pn => exact h
  | ProductUpdated v t n d => exact h

theorem alNodup_of_emits {s t : ProductAggregate} (h : ProductEmits s t)
    (hs : alNodup s.reservations) : alNodup t.reservations := by
  induction h with
  | refl => exact hs
  | step e hv h ih => exact alNodup_apply_event _ e true ih

/-! ### Checkout characterization -/

theorem checkout_none_spec (s : ProductAggregate) (cart_id order_id now : Nat)
    (h : alGet s.reservations cart_id = none) :
    s.checkout_reservation cart_id order_id now
      = (s, some "No reservation found for cart") := by
  simp [ProductAggregate.checkout_reservation, h]

theorem checkout_some_spec (s : ProductAggregate) (cart_id order_id now : Nat)
    (r : StockReservation) (h : alGet s.reservations cart_id = some r) :
    s.checkout_reservation cart_id order_id now
      = ({ s with
           reservations := alErase s.reservations cart_id,
           total_stock := s.total_stock - r.quantity,
           version := s.version + 2,
           uncommitted_events := s.uncommitted_events ++
             [.ProductStockReservationReleased (s.version + 1) now cart_id
                r.quantity "checkout",
              .ProductStockDecreased (s.version + 2) now r.quantity order_id] },
         none) := by
  rw [ProductAggregate.checkout_reservation]
  rw [h]
  rw [release_some_eq s cart_id r "checkout" now h]
  simp [ProductAggregate.apply_event, ProductAggregate.handle]

/-! ### Total stock moves only with Increased/Decreased events -/

theorem handle_total_stock_delta (s : ProductAggregate) (e : ProductEvent)
    (h : e.isCreated = false) :
    (s.handle e).total_stock = s.total_stock + e.stockDelta := by
  cases e
  case ProductStockDecreased v t q oid =>
    simp [ProductAggregate.handle, ProductEvent.stockDelta]
    ring
  all_goals simp_all [ProductAggregate.handle, ProductEvent.stockDelta,
    ProductEvent.isCreated]

theorem release_expired_total (s : ProductAggregate) (now : Nat)
    (h : alNodup s.reservations) :
    (s.release_expired now).total_stock = s.total_stock := by
  have h4 := (release_expired_spec s now h).2.2.2
  simp only [ProductAggregate.frame, Prod.ext_iff] at h4
  exact h4.2.2.2.2.1

theorem release_expired_uncommitted (s : ProductAggregate) (now : Nat)
    (h : alNodup s.reservations) :
    (s.release_expired now).uncommitted_events
      = s.uncommitted_events ++ timeoutEvents s.version now (expiredEntries s now) :=
  (release_expired_spec s now h).2.2.1

theorem stockOp_total_delta (s : ProductAggregate) (c : ProductCmd)
    (h : alNodup s.reservations) (hc : c.isStockOp = true) :
    (runProductCmd s c).1.total_stock
      = s.total_stock
        + ((s.newEvents (runProductCmd s c).1).map ProductEvent.stockDelta).sum := by
  cases c with
  | create n p st d now => simp [ProductCmd.isStockOp] at hc
  | increase_stock q now => simp [ProductCmd.isStockOp] at hc
  | change_price p now => simp [ProductCmd.isStockOp] at hc
  | update_details n d now => simp [ProductCmd.isStockOp] at hc
  | release_reservation cid reason now =>
      simp only [runProductCmd]
      cases hg : alGet s.reservations cid with
      | none =>
          rw [release_none_eq s cid reason now hg]
          simp [ProductAggregate.newEvents, List.drop_length]
      | some r =>
          rw [release_some_eq s cid r reason now hg]
          simp [ProductAggregate.newEvents, List.drop_left, ProductEvent.stockDelta]
  | checkout_reservation cid oid now =>
      simp only [runProductCmd]
      cases hg : alGet s.reservations cid with
      | none =>
          rw [checkout_none_spec s cid oid now hg]
          simp [ProductAggregate.newEvents, List.drop_length]
      | some r =>
          rw [checkout_some_spec s cid oid now r hg]
          simp [ProductAggregate.newEvents, List.drop_left, ProductEvent.stockDelta]
          ring
  | reserve_stock cid q rm now =>
      simp only [runProductCmd]
      by_cases hq : q ≤ 0
      · have hout : s.reserve_stock cid q rm now
            = (s, some "Quantity must be positive") := by
          rw [ProductAggregate.reserve_stock, if_pos hq]
        rw [hout]
        simp [ProductAggregate.newEvents, List.drop_length]
      · have hq' : (0 : ℤ) < q := by omega
        rw [reserve_stock_spec s cid q rm now h hq']
        have hunc := release_expired_uncommitted s now h
        have hts := release_expired_total s now h
        split
        · rw [ProductAggregate.newEvents]
          simp only [hunc, hts, List.drop_left]
          rw [timeoutEvents_stockDelta]
          simp
        · have happ : ((s.release_expired now).apply_event
              (.ProductStockReserved ((s.release_expired now).version + 1) now
                 cid q (now + rm)) true).total_stock
              = (s.release_expired now).total_stock := rfl
          rw [ProductAggregate.newEvents, product_apply_true_uncommitted, happ, hts,
            hunc, List.append_assoc, List.drop_left]
          simp [timeoutEvents_stockDelta, ProductEvent.stockDelta]

/-! ### Claim theorems -/

/-- Claim C1: replay law.  For every legal command sequence executed on an
aggregate starting empty, producing events E1..Em, constructing a fresh
aggregate and applying E1..Em in order with `is_new=false` yields a state
whose observable fields (status, items, version, total_amount, item_count
for Cart; total_stock, reservations, version for Product) equal the live
post-command state. -/
theorem c1_replay_law (cart_id : Nat) (ccmds : List CartCmd)
    (product_id : String) (pnow load_now : Nat) (pcmds : List ProductCmd)
    (hc : cartCmdsOk (CartAggregate.init cart_id) ccmds = true)
    (hp : productCmdsOk (ProductAggregate.init product_id pnow) pcmds = true) :
    ((loadCartAggregate cart_id
        (runCartCmds (CartAggregate.init cart_id) ccmds).uncommitted_events).status
      = (runCartCmds (CartAggregate.init cart_id) ccmds).status ∧
     (loadCartAggregate cart_id
        (runCartCmds (CartAggregate.init cart_id) ccmds).uncommitted_events).items
      = (runCartCmds (CartAggregate.init cart_id) ccmds).items ∧
     (loadCartAggregate cart_id
        (runCartCmds (CartAggregate.init cart_id) ccmds).uncommitted_events).version
      = (runCartCmds (CartAggregate.init cart_id) ccmds).version ∧
     (loadCartAggregate cart_id
        (runCartCmds (CartAggregate.init cart_id) ccmds).uncommitted_events).total_amount
      = (runCartCmds (CartAggregate.init cart_id) ccmds).total_amount ∧
     (loadCartAggregate cart_id
        (runCartCmds (CartAggregate.init cart_id) ccmds).uncommitted_events).item_count
      = (runCartCmds (CartAggregate.init cart_id) ccmds).item_count) ∧
    ((loadProductAggregate product_id load_now
        (runProductCmds (ProductAggregate.init product_id pnow) pcmds).uncommitted_events).total_stock
      = (runProductCmds (ProductAggregate.init product_id pnow) pcmds).total_stock ∧
     (loadProductAggregate product_id load_now
        (runProductCmds (ProductAggregate.init product_id pnow) pcmds).uncommitted_events).reservations
      = (runProductCmds (ProductAggregate.init product_id pnow) pcmds).reservations ∧
     (loadProductAggregate product_id load_now
        (runProductCmds (ProductAggregate.init product_id pnow) pcmds).uncommitted_events).version
      = (runProductCmds (ProductAggregate.init product_id pnow) pcmds).version) := by
  constructor
  · have hbase : loadCartAggregate cart_id
        (CartAggregate.init cart_id).uncommitted_events
        = (CartAggregate.init cart_id).strip := rfl
    have hrep := cart_replay_of_emits cart_id
      (cartEmits_runCmds (CartAggregate.init cart_id) ccmds) hbase
    rw [hrep]
    exact ⟨rfl, rfl, rfl, rfl, rfl⟩
  · have hbase : (loadProductAggregate product_id load_now
        (ProductAggregate.init product_id pnow).uncommitted_events).obs
        = (ProductAggregate.init product_id pnow).obs := rfl
    have hrep := product_replay_of_emits product_id load_now
      (productEmits_runCmds (ProductAggregate.init product_id pnow) pcmds) hbase
    simp only [ProductAggregate.obs, Prod.mk.injEq] at hrep
    exact ⟨hrep.1, hrep.2.1, hrep.2.2⟩

/-- Witness for C1 at concrete legal command sequences. -/
theorem c1_replay_law_witness :
    cartCmdsOk (CartAggregate.init 1) cartCmdsW = true ∧
    productCmdsOk (ProductAggregate.init "P001" 0) prodCmdsW = true ∧
    (((loadCartAggregate 1
        (runCartCmds (CartAggregate.init 1) cartCmdsW).uncommitted_events).status
      = (runCartCmds (CartAggregate.init 1) cartCmdsW).status ∧
     (loadCartAggregate 1
        (runCartCmds (CartAggregate.init 1) cartCmdsW).uncommitted_events).items
      = (runCartCmds (CartAggregate.init 1) cartCmdsW).items ∧
     (loadCartAggregate 1
        (runCartCmds (CartAggregate.init 1) cartCmdsW).uncommitted_events).version
      = (runCartCmds (CartAggregate.init 1) cartCmdsW).version ∧
     (loadCartAggregate 1
        (runCartCmds (CartAggregate.init 1) cartCmdsW).uncommitted_events).total_amount
      = (runCartCmds (CartAggregate.init 1) cartCmdsW).total_amount ∧
     (loadCartAggregate 1
        (runCartCmds (CartAggregate.init 1) cartCmdsW).uncommitted_events).item_count
      = (runCartCmds (CartAggregate.init 1) cartCmdsW).item_count) ∧
    ((loadProductAggregate "P001" 55
        (runProductCmds (ProductAggregate.init "P001" 0) prodCmdsW).uncommitted_events).total_stock
      = (runProductCmds (ProductAggregate.init "P001" 0) prodCmdsW).total_stock ∧
     (loadProductAggregate "P001" 55
        (runProductCmds (ProductAggregate.init "P001" 0) prodCmdsW).uncommitted_events).reservations
      = (runProductCmds (ProductAggregate.init "P001" 0) prodCmdsW).reservations ∧
     (loadProductAggregate "P001" 55
        (runProductCmds (ProductAggregate.init "P001" 0) prodCmdsW).uncommitted_events).version
      = (runProductCmds (ProductAggregate.init "P001" 0) prodCmdsW).version)) :=
  ⟨by decide, by decide,
   c1_replay_law 1 cartCmdsW "P001" 0 55 prodCmdsW (by decide) (by decide)⟩

/-- Claim C2: version density and monotonicity.  On every legal command
sequence from the empty aggregate, the version counter advances to the
applied event's `aggregate_version` as soon as `apply_event` runs (third
and fourth conjuncts, for any state and event), every emitted event is
stamped `version + 1` at its emission point, and consequently the emitted
events carry the dense version sequence 1, 2, ..., m with the final
counter equal to m (first and second conjuncts of each half). -/
theorem c2_version_density (cart_id : Nat) (ccmds : List CartCmd)
    (product_id : String) (pnow : Nat) (pcmds : List ProductCmd)
    (hc : cartCmdsOk (CartAggregate.init cart_id) ccmds = true)
    (hp : productCmdsOk (ProductAggregate.init product_id pnow) pcmds = true) :
    ((runCartCmds (CartAggregate.init cart_id) ccmds).version
      = (runCartCmds (CartAggregate.init cart_id) ccmds).uncommitted_events.length ∧
     (runCartCmds (CartAggregate.init cart_id) ccmds).uncommitted_events.map
        CartEvent.aggregate_version
      = List.range' 1
          (runCartCmds (CartAggregate.init cart_id) ccmds).uncommitted_events.length) ∧
    ((runProductCmds (ProductAggregate.init product_id pnow) pcmds).version
      = (runProductCmds (ProductAggregate.init product_id pnow) pcmds).uncommitted_events.length ∧
     (runProductCmds (ProductAggregate.init product_id pnow) pcmds).uncommitted_events.map
        ProductEvent.aggregate_version
      = List.range' 1
          (runProductCmds (ProductAggregate.init product_id pnow) pcmds).uncommitted_events.length) ∧
    (∀ (s : CartAggregate) (e : CartEvent) (b : Bool),
       (s.apply_event e b).version = e.aggregate_version) ∧
    (∀ (s : ProductAggregate) (e : ProductEvent) (b : Bool),
       (s.apply_event e b).version = e.aggregate_version) := by
  refine ⟨?_, ?_, cart_apply_version, product_apply_version⟩
  · exact cart_version_of_emits
      (cartEmits_runCmds (CartAggregate.init cart_id) ccmds) ⟨rfl, rfl⟩
  · exact product_version_of_emits
      (productEmits_runCmds (ProductAggregate.init product_id pnow) pcmds) ⟨rfl, rfl⟩

/-- Witness for C2 at concrete legal command sequences. -/
theorem c2_version_density_witness :
    cartCmdsOk (CartAggregate.init 1) cartCmdsW = true ∧
    productCmdsOk (ProductAggregate.init "P001" 0) prodCmdsW = true ∧
    (((runCartCmds (CartAggregate.init 1) cartCmdsW).version
      = (runCartCmds (CartAggregate.init 1) cartCmdsW).uncommitted_events.length ∧
     (runCartCmds (CartAggregate.init 1) cartCmdsW).uncommitted_events.map
        CartEvent.aggregate_version
      = List.range' 1
          (runCartCmds (CartAggregate.init 1) cartCmdsW).uncommitted_events.length) ∧
    ((runProductCmds (ProductAggregate.init "P001" 0) prodCmdsW).version
      = (runProductCmds (ProductAggregate.init "P001" 0) prodCmdsW).uncommitted_events.length ∧
     (runProductCmds (ProductAggregate.init "P001" 0) prodCmdsW).uncommitted_events.map
        ProductEvent.aggregate_version
      = List.range' 1
          (runProductCmds (ProductAggregate.init "P001" 0) prodCmdsW).uncommitted_events.length) ∧
    (∀ (s : CartAggregate) (e : CartEvent) (b : Bool),
       (s.apply_event e b).version = e.aggregate_version) ∧
    (∀ (s : ProductAggregate) (e : ProductEvent) (b : Bool),
       (s.apply_event e b).version = e.aggregate_version)) :=
  ⟨by decide, by decide,
   c2_version_density 1 cartCmdsW "P001" 0 prodCmdsW (by decide) (by decide)⟩

/-- Claim C3: reservation accounting.  From any dict-sound state, after
any sequence of reserve/release/checkout operations the key soundness is
preserved, `available_stock` (its value component) equals
`total_stock - Σ quantities of non-expired reservations` at every clock
value, and `total_stock` moves exactly by the signed contribution of the
`ProductStockIncreased`/`ProductStockDecreased` events an operation
appends (every other handler leaves it unchanged, last conjunct). -/
theorem c3_reservation_accounting (s : ProductAggregate)
    (h : alNodup s.reservations) (cs : List ProductCmd)
    (hcs : ∀ c ∈ cs, c.isStockOp = true) :
    alNodup (runProductCmds s cs).reservations ∧
    (∀ now : Nat,
      ((runProductCmds s cs).available_stock now).1
        = (runProductCmds s cs).total_stock
          - (((runProductCmds s cs).reservations.filter
               (fun p => !(p.2.is_expired now))).map (fun p => p.2.quantity)).sum) ∧
    (∀ c : ProductCmd, c.isStockOp = true →
      (runProductCmd (runProductCmds s cs) c).1.total_stock
        = (runProductCmds s cs).total_stock
          + (((runProductCmds s cs).newEvents
               (runProductCmd (runProductCmds s cs) c).1).map
               ProductEvent.stockDelta).sum) ∧
    (∀ e : ProductEvent, e.isCreated = false →
      ((runProductCmds s cs).handle e).total_stock
        = (runProductCmds s cs).total_stock + e.stockDelta) := by
  have hnd : alNodup (runProductCmds s cs).reservations :=
    alNodup_of_emits (productEmits_runCmds s cs) h
  refine ⟨hnd, ?_, ?_, ?_⟩
  · intro now
    rw [available_stock_spec _ now hnd]
  · intro c hc2
    exact stockOp_total_delta _ c hnd hc2
  · intro e he
    exact handle_total_stock_delta _ e he

/-- Witness for C3: the sample product runs a release and a reserve. -/
theorem c3_reservation_accounting_witness :
    alNodup sampleProduct.reservations ∧
    (∀ c ∈ [ProductCmd.release_reservation 2 "released" 20,
            ProductCmd.reserve_stock 3 4 15 20], c.isStockOp = true) ∧
    (alNodup (runProductCmds sampleProduct
        [ProductCmd.release_reservation 2 "released" 20,
         ProductCmd.reserve_stock 3 4 15 20]).reservations ∧
    (∀ now : Nat,
      ((runProductCmds sampleProduct
          [ProductCmd.release_reservation 2 "released" 20,
           ProductCmd.reserve_stock 3 4 15 20]).available_stock now).1
        = (runProductCmds sampleProduct
            [ProductCmd.release_reservation 2 "released" 20,
             ProductCmd.reserve_stock 3 4 15 20]).total_stock
          - (((runProductCmds sampleProduct
               [ProductCmd.release_reservation 2 "released" 20,
                ProductCmd.reserve_stock 3 4 15 20]).reservations.filter
               (fun p => !(p.2.is_expired now))).map (fun p => p.2.quantity)).sum) ∧
    (∀ c : ProductCmd, c.isStockOp = true →
      (runProductCmd (runProductCmds sampleProduct
          [ProductCmd.release_reservation 2 "released" 20,
           ProductCmd.reserve_stock 3 4 15 20]) c).1.total_stock
        = (runProductCmds sampleProduct
            [ProductCmd.release_reservation 2 "released" 20,
             ProductCmd.reserve_stock 3 4 15 20]).total_stock
          + (((runProductCmds sampleProduct
               [ProductCmd.release_reservation 2 "released" 20,
                ProductCmd.reserve_stock 3 4 15 20]).newEvents
               (runProductCmd (runProductCmds sampleProduct
                  [ProductCmd.release_reservation 2 "released" 20,
                   ProductCmd.reserve_stock 3 4 15 20]) c).1).map
               ProductEvent.stockDelta).sum) ∧
    (∀ e : ProductEvent, e.isCreated = false →
      ((runProductCmds sampleProduct
          [ProductCmd.release_reservation 2 "released" 20,
           ProductCmd.reserve_stock 3 4 15 20]).handle e).total_stock
        = (runProductCmds sampleProduct
            [ProductCmd.release_reservation 2 "released" 20,
             ProductCmd.reserve_stock 3 4 15 20]).total_stock + e.stockDelta)) :=
  ⟨by decide, by decide,
   c3_reservation_accounting sampleProduct (by decide)
     [ProductCmd.release_reservation 2 "released" 20,
      ProductCmd.reserve_stock 3 4 15 20] (by decide)⟩

/-- Claim C5: `reserve_stock` with positive quantity first releases every
expired reservation (one timeout `ProductStockReservationReleased` per
expired entry, appended before anything else), then fails with a
validation error exactly when the requested quantity exceeds the
available stock after the sweep (emitting no `ProductStockReserved`), and
otherwise emits exactly one `ProductStockReserved(cart_id, quantity,
reserved_until = now + reservation_minutes)`. -/
theorem c5_reserve_stock_order (s : ProductAggregate) (cart_id : Nat)
    (quantity : ℤ) (rm now : Nat) (h : alNodup s.reservations)
    (hq : 0 < quantity) :
    (s.release_expired now).uncommitted_events
      = s.uncommitted_events
        ++ timeoutEvents s.version now (expiredEntries s now) ∧
    (timeoutEvents s.version now (expiredEntries s now)).length
      = (expiredEntries s now).length ∧
    (∀ e ∈ timeoutEvents s.version now (expiredEntries s now),
       e.isTimeoutRelease = true) ∧
    (quantity > s.total_stock
        - ((s.reservations.filter (fun p => !(p.2.is_expired now))).map
            (fun p => p.2.quantity)).sum →
      s.reserve_stock cart_id quantity rm now
        = (s.release_expired now, some "Insufficient stock")) ∧
    (¬ quantity > s.total_stock
        - ((s.reservations.filter (fun p => !(p.2.is_expired now))).map
            (fun p => p.2.quantity)).sum →
      s.reserve_stock cart_id quantity rm now
        = ((s.release_expired now).apply_event
             (.ProductStockReserved ((s.release_expired now).version + 1) now
                cart_id quantity (now + rm)) true, none)) ∧
    ((s.reserve_stock cart_id quantity rm now).2.isSome
      ↔ quantity > s.total_stock
          - ((s.reservations.filter (fun p => !(p.2.is_expired now))).map
              (fun p => p.2.quantity)).sum) := by
  have hspec := reserve_stock_spec s cart_id quantity rm now h hq
  refine ⟨release_expired_uncommitted s now h,
    timeoutEvents_length _ _ _, timeoutEvents_all_timeout _ _ _, ?_, ?_, ?_⟩
  · intro hgt
    rw [hspec, if_pos hgt]
  · intro hle
    rw [hspec, if_neg hle]
  · rw [hspec]
    by_cases hgt : quantity > s.total_stock
        - ((s.reservations.filter (fun p => !(p.2.is_expired now))).map
            (fun p => p.2.quantity)).sum
    · rw [if_pos hgt]
      simpa using hgt
    · rw [if_neg hgt]
      simpa using hgt

/-- Witness for C5 on the sample product at `now = 16` (one expired
reservation, one active): the failing and the succeeding request. -/
theorem c5_reserve_stock_order_witness :
    alNodup sampleProduct.reservations ∧ (0 : ℤ) < 4 ∧
    ((sampleProduct.release_expired 16).uncommitted_events
      = sampleProduct.uncommitted_events
        ++ timeoutEvents sampleProduct.version 16 (expiredEntries sampleProduct 16) ∧
    (timeoutEvents sampleProduct.version 16 (expiredEntries sampleProduct 16)).length
      = (expiredEntries sampleProduct 16).length ∧
    (∀ e ∈ timeoutEvents sampleProduct.version 16 (expiredEntries sampleProduct 16),
       e.isTimeoutRelease = true) ∧
    ((4 : ℤ) > sampleProduct.total_stock
        - ((sampleProduct.reservations.filter (fun p => !(p.2.is_expired 16))).map
            (fun p => p.2.quantity)).sum →
      sampleProduct.reserve_stock 3 4 15 16
        = (sampleProduct.release_expired 16, some "Insufficient stock")) ∧
    (¬ (4 : ℤ) > sampleProduct.total_stock
        - ((sampleProduct.reservations.filter (fun p => !(p.2.is_expired 16))).map
            (fun p => p.2.quantity)).sum →
      sampleProduct.reserve_stock 3 4 15 16
        = ((sampleProduct.release_expired 16).apply_event
             (.ProductStockReserved ((sampleProduct.release_expired 16).version + 1)
                16 3 4 (16 + 15)) true, none)) ∧
    ((sampleProduct.reserve_stock 3 4 15 16).2.isSome
      ↔ (4 : ℤ) > sampleProduct.total_stock
          - ((sampleProduct.reservations.filter (fun p => !(p.2.is_expired 16))).map
              (fun p => p.2.quantity)).sum)) :=
  ⟨by decide, by decide, c5_reserve_stock_order sampleProduct 3 4 15 16 (by decide) (by decide)⟩

/-- Claim C6: `checkout_reservation` with an existing reservation emits
exactly the pair `ProductStockReservationReleased(reason="checkout")`
then `ProductStockDecreased(quantity, order_id)`, after which
`total_stock` has dropped by exactly the reserved quantity and the
reservation mapping no longer contains the cart; with no reservation it
raises the validation error and leaves the state untouched. -/
theorem c6_checkout_reservation (s : ProductAggregate)
    (cart_id order_id now : Nat) :
    (∀ r : StockReservation, alGet s.reservations cart_id = some r →
      s.checkout_reservation cart_id order_id now
        = ({ s with
             reservations := alErase s.reservations cart_id,
             total_stock := s.total_stock - r.quantity,
             version := s.version + 2,
             uncommitted_events := s.uncommitted_events ++
               [.ProductStockReservationReleased (s.version + 1) now cart_id
                  r.quantity "checkout",
                .ProductStockDecreased (s.version + 2) now r.quantity order_id] },
           none) ∧
      alGet (s.checkout_reservation cart_id order_id now).1.reservations cart_id
        = none) ∧
    (alGet s.reservations cart_id = none →
      s.checkout_reservation cart_id order_id now
        = (s, some "No reservation found for cart")) := by
  constructor
  · intro r hr
    have hck := checkout_some_spec s cart_id order_id now r hr
    refine ⟨hck, ?_⟩
    rw [hck]
    exact alGet_alErase_self s.reservations cart_id
  · intro hn
    exact checkout_none_spec s cart_id order_id now hn

/-- Witness for C6: checkout of the existing reservation for cart 1 on
the sample product, and the rejected checkout for the absent cart 9. -/
theorem c6_checkout_reservation_witness :
    alGet sampleProduct.reservations 1
      = some { cart_id := 1, quantity := 2, reserved_until := 15 } ∧
    alGet sampleProduct.reservations 9 = none ∧
    (sampleProduct.checkout_reservation 1 7 3
        = ({ sampleProduct with
             reservations := alErase sampleProduct.reservations 1,
             total_stock := sampleProduct.total_stock - 2,
             version := sampleProduct.version + 2,
             uncommitted_events := sampleProduct.uncommitted_events ++
               [.ProductStockReservationReleased (sampleProduct.version + 1) 3 1
                  2 "checkout",
                .ProductStockDecreased (sampleProduct.version + 2) 3 2 7] },
           none) ∧
     alGet (sampleProduct.checkout_reservation 1 7 3).1.reservations 1 = none) ∧
    sampleProduct.checkout_reservation 9 7 3
      = (sampleProduct, some "No reservation found for cart") :=
  ⟨by decide, by decide,
   (c6_checkout_reservation sampleProduct 1 7 3).1
     { cart_id := 1, quantity := 2, reserved_until := 15 } (by decide),
   (c6_checkout_reservation sampleProduct 9 7 3).2 (by decide)⟩

/-- Claim C9: `release_reservation` is idempotent.  With no reservation
for the cart it emits nothing, changes nothing and returns normally
(first conjunct: the call is the identity on the state; the embedded
method cannot raise by construction); hence two successive calls for the
same pair append at most one `ProductStockReservationReleased` for that
cart to the uncommitted buffer (second conjunct). -/
theorem c9_release_idempotent (s : ProductAggregate) (cart_id : Nat)
    (reason reason2 : String) (now now2 : Nat) :
    (alGet s.reservations cart_id = none →
      s.release_reservation cart_id reason now = s) ∧
    ((s.release_reservation cart_id reason now).release_reservation
        cart_id reason2 now2).uncommitted_events.countP
        (ProductEvent.isReleasedFor cart_id)
      ≤ s.uncommitted_events.countP (ProductEvent.isReleasedFor cart_id) + 1 := by
  refine ⟨release_none_eq s cart_id reason now, ?_⟩
  cases hg : alGet s.reservations cart_id with
  | none =>
      rw [release_none_eq s cart_id reason now hg,
        release_none_eq s cart_id reason2 now2 hg]
      omega
  | some r =>
      rw [release_some_eq s cart_id r reason now hg]
      have hg2 : alGet (alErase s.reservations cart_id) cart_id = none :=
        alGet_alErase_self s.reservations cart_id
      rw [release_none_eq _ cart_id reason2 now2 hg2]
      rw [List.countP_append]
      simp only [List.countP_cons, List.countP_nil]
      split <;> omega

/-- Witness for C9: releasing the absent cart 9, then the double release
for cart 1, on the sample product. -/
theorem c9_release_idempotent_witness :
    alGet sampleProduct.reservations 9 = none ∧
    (sampleProduct.release_reservation 9 "released" 3 = sampleProduct) ∧
    ((sampleProduct.release_reservation 1 "released" 3).release_reservation
        1 "released" 4).uncommitted_events.countP
        (ProductEvent.isReleasedFor 1)
      ≤ sampleProduct.uncommitted_events.countP (ProductEvent.isReleasedFor 1) + 1 :=
  ⟨by decide,
   (c9_release_idempotent sampleProduct 9 "released" "released" 3 4).1 (by decide),
   (c9_release_idempotent sampleProduct 1 "released" "released" 3 4).2⟩

/-- Claim C10: reading the `reserved_stock` / `available_stock`
properties is not a pure read.  On any dict-sound state holding at least
one expired reservation, evaluating either property drops every expired
reservation, appends one timeout `ProductStockReservationReleased` per
expired entry to the uncommitted buffer, advances `version` by the
number of expired entries, leaves every other field unchanged, and in
particular returns a state different from the input. -/
theorem c10_property_read_mutates (s : ProductAggregate) (now : Nat)
    (h : alNodup s.reservations) (hexp : expiredEntries s now ≠ []) :
    (s.available_stock now).2 = (s.reserved_stock now).2 ∧
    (s.reserved_stock now).2.reservations
      = s.reservations.filter (fun p => !(p.2.is_expired now)) ∧
    (s.reserved_stock now).2.uncommitted_events
      = s.uncommitted_events
        ++ timeoutEvents s.version now (expiredEntries s now) ∧
    (timeoutEvents s.version now (expiredEntries s now)).length
      = (expiredEntries s now).length ∧
    (∀ e ∈ timeoutEvents s.version now (expiredEntries s now),
       e.isTimeoutRelease = true) ∧
    (s.reserved_stock now).2.version
      = s.version + (expiredEntries s now).length ∧
    (s.reserved_stock now).2.frame = s.frame ∧
    (s.reserved_stock now).2 ≠ s := by
  have hsp := release_expired_spec s now h
  have h2 : (s.reserved_stock now).2 = s.release_expired now := rfl
  refine ⟨rfl, ?_, ?_, timeoutEvents_length _ _ _,
    timeoutEvents_all_timeout _ _ _, ?_, ?_, ?_⟩
  · rw [h2, hsp.1]
  · rw [h2, hsp.2.2.1]
  · rw [h2, hsp.2.1]
  · rw [h2, hsp.2.2.2]
  · rw [h2]
    intro heq
    have hlen : (s.release_expired now).uncommitted_events.length
        = s.uncommitted_events.length
          + (timeoutEvents s.version now (expiredEntries s now)).length := by
      rw [hsp.2.2.1, List.length_append]
    rw [heq] at hlen
    rw [timeoutEvents_length] at hlen
    have : (expiredEntries s now).length = 0 := by omega
    exact hexp (List.length_eq_zero.mp this)

/-- Witness for C10: the sample product read at `now = 16`, when the
cart-1 reservation has expired. -/
theorem c10_property_read_mutates_witness :
    alNodup sampleProduct.reservations ∧
    expiredEntries sampleProduct 16 ≠ [] ∧
    ((sampleProduct.available_stock 16).2 = (sampleProduct.reserved_stock 16).2 ∧
    (sampleProduct.reserved_stock 16).2.reservations
      = sampleProduct.reservations.filter (fun p => !(p.2.is_expired 16)) ∧
    (sampleProduct.reserved_stock 16).2.uncommitted_events
      = sampleProduct.uncommitted_events
        ++ timeoutEvents sampleProduct.version 16 (expiredEntries sampleProduct 16) ∧
    (timeoutEvents sampleProduct.version 16 (expiredEntries sampleProduct 16)).length
      = (expiredEntries sampleProduct 16).length ∧
    (∀ e ∈ timeoutEvents sampleProduct.version 16 (expiredEntries sampleProduct 16),
       e.isTimeoutRelease = true) ∧
    (sampleProduct.reserved_stock 16).2.version
      = sampleProduct.version + (expiredEntries sampleProduct 16).length ∧
    (sampleProduct.reserved_stock 16).2.frame = sampleProduct.frame ∧
    (sampleProduct.reserved_stock 16).2 ≠ sampleProduct) :=
  ⟨by decide, by decide,
   c10_property_read_mutates sampleProduct 16 (by decide) (by decide)⟩

/-- Claim C7: cart guard and atomicity.  Each mutating cart command
raises the status `ValueError` whenever `status ≠ PENDING`, `checkout`
additionally raises on an empty item mapping, and every such rejected
call returns the aggregate exactly as it was (no event emitted, no field
changed). -/
theorem c7_cart_guards (s : CartAggregate) (pid pname : String) (price : ℚ)
    (qty newq : ℤ) (oid : Nat) (reason : String) (now : Nat) :
    (s.status ≠ .PENDING →
      s.add_item pid pname price qty now
        = (s, some ("Cannot add items to cart with status: " ++ s.status.text)) ∧
      s.remove_item pid now
        = (s, some ("Cannot remove items from cart with status: " ++ s.status.text)) ∧
      s.change_quantity pid newq now
        = (s, some ("Cannot change quantity in cart with status: " ++ s.status.text)) ∧
      s.checkout oid now
        = (s, some ("Cannot checkout cart with status: " ++ s.status.text)) ∧
      s.expire reason now
        = (s, some ("Cannot expire cart with status: " ++ s.status.text))) ∧
    (s.status = .PENDING → s.items = [] →
      s.checkout oid now = (s, some "Cannot checkout empty cart")) := by
  constructor
  · intro h
    refine ⟨?_, ?_, ?_, ?_, ?_⟩
    · rw [CartAggregate.add_item, if_pos h]
    · rw [CartAggregate.remove_item, if_pos h]
    · rw [CartAggregate.change_quantity, if_pos h]
    · rw [CartAggregate.checkout, if_pos h]
    · rw [CartAggregate.expire, if_pos h]
  · intro h hempty
    rw [CartAggregate.checkout, if_neg (by simp [h]), if_pos (by simp [hempty])]

/-- Witness for C7: the checked-out cart rejects every mutation; the
fresh pending cart rejects checkout. -/
theorem c7_cart_guards_witness :
    checkedOutCartW.status ≠ CartStatus.PENDING ∧
    (checkedOutCartW.add_item "P002" "B" 3 1 5
        = (checkedOutCartW,
           some ("Cannot add items to cart with status: "
             ++ checkedOutCartW.status.text)) ∧
      checkedOutCartW.remove_item "P002" 5
        = (checkedOutCartW,
           some ("Cannot remove items from cart with status: "
             ++ checkedOutCartW.status.text)) ∧
      checkedOutCartW.change_quantity "P002" 2 5
        = (checkedOutCartW,
           some ("Cannot change quantity in cart with status: "
             ++ checkedOutCartW.status.text)) ∧
      checkedOutCartW.checkout 11 5
        = (checkedOutCartW,
           some ("Cannot checkout cart with status: "
             ++ checkedOutCartW.status.text)) ∧
      checkedOutCartW.expire "15_minute_timeout" 5
        = (checkedOutCartW,
           some ("Cannot expire cart with status: "
             ++ checkedOutCartW.status.text))) ∧
    emptyPendingCartW.status = CartStatus.PENDING ∧
    emptyPendingCartW.items = [] ∧
    emptyPendingCartW.checkout 11 5
      = (emptyPendingCartW, some "Cannot checkout empty cart") :=
  ⟨by decide,
   (c7_cart_guards checkedOutCartW "P002" "B" 3 1 2 11 "15_minute_timeout" 5).1
     (by decide),
   by decide, by decide,
   (c7_cart_guards emptyPendingCartW "P002" "B" 3 1 2 11 "15_minute_timeout" 5).2
     (by decide) (by decide)⟩

/-- Counterexample to claim C4 as stated.  Adding `(P001, "Laptop",
price 10, qty 1)` then `(P001, "Laptop Pro", price 20, qty 2)` to a fresh
cart merges into a single row, but the projected row (built verbatim
from the aggregate items by `_update_read_model`) carries the FIRST
add's price (10) and name ("Laptop"), not the second add's (20,
"Laptop Pro") as the claim asserts: `_apply_ItemAddedToCart` only
increments `quantity` when the product is already present. -/
theorem c4_counterexample :
    projectItems c4cart
      = [{ product_id := "P001", product_name := "Laptop", price := 10,
           quantity := 3, total_price := 10 * ((3 : ℤ) : ℚ) }] ∧
    ("Laptop" : String) ≠ "Laptop Pro" ∧ (10 : ℚ) ≠ 20 :=
  ⟨rfl, by decide, by decide⟩

/-- Claim C4 as amended: the second add merges quantities into a single
entry, and the price and name of the FIRST add stay authoritative for
the aggregate and hence for the projected item row. -/
theorem c4_duplicate_add_merges (s : CartAggregate)
    (pid n1 n2 : String) (p1 p2 : ℚ) (q1 q2 : ℤ) (t1 t2 : Nat)
    (hst : s.status = .PENDING)
    (habs : alGet s.items pid = none)
    (hwf : ∀ p ∈ s.items, p.2.product_id = p.1)
    (hq1 : 0 < q1) (hq2 : 0 < q2) (hp1 : 0 ≤ p1) (hp2 : 0 ≤ p2) :
    (s.add_item pid n1 p1 q1 t1).2 = none ∧
    ((s.add_item pid n1 p1 q1 t1).1.add_item pid n2 p2 q2 t2).2 = none ∧
    ((s.add_item pid n1 p1 q1 t1).1.add_item pid n2 p2 q2 t2).1.items
      = s.items ++ [(pid, { product_id := pid, product_name := n1,
                            price := p1, quantity := q1 + q2 })] ∧
    (((s.add_item pid n1 p1 q1 t1).1.add_item pid n2 p2 q2 t2).1.items.filter
        (fun p => p.1 == pid))
      = [(pid, { product_id := pid, product_name := n1,
                 price := p1, quantity := q1 + q2 })] ∧
    ((projectItems ((s.add_item pid n1 p1 q1 t1).1.add_item pid n2 p2 q2 t2).1).filter
        (fun row => row.product_id == pid))
      = [{ product_id := pid, product_name := n1, price := p1,
           quantity := q1 + q2, total_price := p1 * ((q1 + q2 : ℤ) : ℚ) }] := by
  have hne : ∀ p ∈ s.items, (p.1 == pid) = false := by
    intro p hp
    have := (alGet_eq_none_iff s.items pid).mp habs p hp
    simpa using this
  have hany : s.items.any (fun p => p.1 == pid) = false := by
    rw [List.any_eq_false]
    intro p hp
    simp [hne p hp]
  have h1 : s.add_item pid n1 p1 q1 t1
      = (s.apply_event (.ItemAddedToCart (s.version + 1) t1 pid n1 p1 q1) true,
         none) := by
    rw [CartAggregate.add_item, if_neg (by simp [hst]), if_neg (by omega),
      if_neg (not_lt.mpr hp1)]
  have hitems1 : (s.add_item pid n1 p1 q1 t1).1.items
      = s.items ++ [(pid, { product_id := pid, product_name := n1,
                            price := p1, quantity := q1 })] := by
    rw [h1]
    show itemsAdd s.items pid n1 p1 q1 = _
    rw [itemsAdd, if_neg (by simp [hany])]
  have hst1 : (s.add_item pid n1 p1 q1 t1).1.status = CartStatus.PENDING := by
    rw [h1]
    exact hst
  have h2 : (s.add_item pid n1 p1 q1 t1).1.add_item pid n2 p2 q2 t2
      = ((s.add_item pid n1 p1 q1 t1).1.apply_event
           (.ItemAddedToCart ((s.add_item pid n1 p1 q1 t1).1.version + 1) t2
              pid n2 p2 q2) true, none) := by
    rw [CartAggregate.add_item, if_neg (by simp [hst1]), if_neg (by omega),
      if_neg (not_lt.mpr hp2)]
  have hitems2 : ((s.add_item pid n1 p1 q1 t1).1.add_item pid n2 p2 q2 t2).1.items
      = s.items ++ [(pid, { product_id := pid, product_name := n1,
                            price := p1, quantity := q1 + q2 })] := by
    rw [h2]
    show itemsAdd (s.add_item pid n1 p1 q1 t1).1.items pid n2 p2 q2 = _
    rw [hitems1, itemsAdd,
      if_pos (by simp [List.any_append])]
    rw [List.map_append]
    have hmapid : s.items.map (fun p =>
        if p.1 == pid then (p.1, { p.2 with quantity := p.2.quantity + q2 })
        else p) = s.items := by
      conv_rhs => rw [← List.map_id s.items]
      apply List.map_congr_left
      intro p hp
      simp [hne p hp]
    rw [hmapid]
    simp
  refine ⟨by rw [h1], by rw [h2], hitems2, ?_, ?_⟩
  · rw [hitems2, List.filter_append]
    rw [List.filter_eq_nil_iff.mpr (by intro p hp; simp [hne p hp])]
    simp
  · rw [projectItems, hitems2, List.map_append, List.filter_append]
    rw [List.filter_eq_nil_iff.mpr ?hnil]
    case hnil =>
      intro row hrow
      rcases List.mem_map.mp hrow with ⟨p, hp, hrp⟩
      have hid : row.product_id = p.1 := by
        rw [← hrp]
        exact hwf p hp
      simp [hid, hne p hp]
    simp [CartItem.total_price]

/-- Witness for the amended C4 on a fresh pending cart. -/
theorem c4_duplicate_add_merges_witness :
    (CartAggregate.init 9).status = CartStatus.PENDING ∧
    alGet (CartAggregate.init 9).items "P001" = none ∧
    (((CartAggregate.init 9).add_item "P001" "Laptop" 10 1 1).2 = none ∧
    (((CartAggregate.init 9).add_item "P001" "Laptop" 10 1 1).1.add_item
        "P001" "Laptop Pro" 20 2 2).2 = none ∧
    (((CartAggregate.init 9).add_item "P001" "Laptop" 10 1 1).1.add_item
        "P001" "Laptop Pro" 20 2 2).1.items
      = (CartAggregate.init 9).items
        ++ [("P001", { product_id := "P001", product_name := "Laptop",
                       price := 10, quantity := 1 + 2 })] ∧
    ((((CartAggregate.init 9).add_item "P001" "Laptop" 10 1 1).1.add_item
        "P001" "Laptop Pro" 20 2 2).1.items.filter (fun p => p.1 == "P001"))
      = [("P001", { product_id := "P001", product_name := "Laptop",
                    price := 10, quantity := 1 + 2 })] ∧
    ((projectItems (((CartAggregate.init 9).add_item "P001" "Laptop" 10 1 1).1.add_item
        "P001" "Laptop Pro" 20 2 2).1).filter (fun row => row.product_id == "P001"))
      = [{ product_id := "P001", product_name := "Laptop", price := 10,
           quantity := 1 + 2, total_price := 10 * ((1 + 2 : ℤ) : ℚ) }]) :=
  ⟨by decide, by decide,
   c4_duplicate_add_merges (CartAggregate.init 9) "P001" "Laptop" "Laptop Pro"
     10 20 1 2 1 2 (by decide) (by decide) (by decide) (by decide) (by decide)
     (by decide) (by decide)⟩

/-! ### Event-store save semantics -/

theorem storeInsertAll_spec {α : Type} [BEq α] [LawfulBEq α] :
    ∀ (events store : List (EventRecord α)),
    (∀ e ∈ events, ∀ x ∈ store, x.event_id ≠ e.event_id) →
    (events.map (fun e => e.event_id)).Nodup →
    (hasVersionCollision store events = false →
       storeInsertAll store events = .ok (store ++ events)) ∧
    (hasVersionCollision store events = true →
       ∃ m, storeInsertAll store events = .error m) := by
  intro events
  induction events with
  | nil =>
      intro store _ _
      exact ⟨fun _ => by simp [storeInsertAll],
        fun h => by simp [hasVersionCollision] at h⟩
  | cons e es ih =>
      intro store hfresh hnd
      have hid : store.any (fun x => x.event_id == e.event_id) = false := by
        rw [List.any_eq_false]
        intro x hx
        simpa using hfresh e (by simp) x hx
      have hfresh' : ∀ e' ∈ es, ∀ x ∈ store ++ [e], x.event_id ≠ e'.event_id := by
        intro e' he' x hx
        rcases List.mem_append.mp hx with hx | hx
        · exact hfresh e' (by simp [he']) x hx
        · have hx' : x = e := by simpa using hx
          subst hx'
          intro hcontra
          have : e'.event_id ∈ es.map (fun e => e.event_id) :=
            List.mem_map_of_mem _ he'
          rw [← hcontra] at this
          exact (List.nodup_cons.mp hnd).1 this
      have hnd' : (es.map (fun e => e.event_id)).Nodup :=
        (List.nodup_cons.mp hnd).2
      have ihs := ih (store ++ [e]) hfresh' hnd'
      cases hhead : store.any (fun x =>
          x.aggregate_id == e.aggregate_id
            && x.aggregate_version == e.aggregate_version) with
      | true =>
          constructor
          · intro hcol
            rw [hasVersionCollision, hhead] at hcol
            simp at hcol
          · intro _
            refine ⟨"unique constraint violated: aggregate_id, aggregate_version", ?_⟩
            rw [storeInsertAll, storeInsert, if_neg (by simp [hid]),
              if_pos (by simp [hhead])]
      | false =>
          have hstep : storeInsertAll store (e :: es)
              = storeInsertAll (store ++ [e]) es := by
            rw [storeInsertAll, storeInsert, if_neg (by simp [hid]),
              if_neg (by simp [hhead])]
          have hcolstep : hasVersionCollision store (e :: es)
              = hasVersionCollision (store ++ [e]) es := by
            rw [hasVersionCollision, hhead]
            simp
          constructor
          · intro hcol
            rw [hcolstep] at hcol
            rw [hstep, ihs.1 hcol]
            simp
          · intro hcol
            rw [hcolstep] at hcol
            rw [hstep]
            exact ihs.2 hcol

/-- Claim C8: `save_events(aggregate_id, events, expected_version)` is a
no-op on the empty batch; otherwise (with the batch's `event_id`s fresh,
as `uuid4()` guarantees) it fails with `ConcurrencyException` exactly
when the maximum stored version for the aggregate differs from
`expected_version` or the batch collides on the unique
`(aggregate_id, aggregate_version)` constraint, and the outcome is all
or nothing: either every event is appended or the table is unchanged
(the error branch rolls the transaction back). -/
theorem c8_save_events_semantics {α : Type} [BEq α] [LawfulBEq α]
    (store : List (EventRecord α)) (aggregate_id : α)
    (events : List (EventRecord α)) (expected_version : Nat)
    (hfresh : freshEventIds store events) :
    (events = [] →
      save_events store aggregate_id events expected_version = .ok store) ∧
    (events ≠ [] →
      ((save_events store aggregate_id events expected_version
          = .ok (store ++ events))
        ↔ (storeCurrentVersion store aggregate_id = expected_version ∧
           hasVersionCollision store events = false)) ∧
      ((∃ m, save_events store aggregate_id events expected_version = .error m)
        ↔ (storeCurrentVersion store aggregate_id ≠ expected_version ∨
           hasVersionCollision store events = true)) ∧
      (save_events store aggregate_id events expected_version
          = .ok (store ++ events) ∨
       ∃ m, save_events store aggregate_id events expected_version
          = .error m)) := by
  obtain ⟨hf1, hf2⟩ := hfresh
  have hspec := storeInsertAll_spec events store hf1 hf2
  constructor
  · intro he
    subst he
    simp [save_events]
  · intro hne
    have hne' : events.isEmpty = false := by
      cases events with
      | nil => exact absurd rfl hne
      | cons e es => rfl
    by_cases hv : storeCurrentVersion store aggregate_id = expected_version
    · cases hcol : hasVersionCollision store events with
      | false =>
          have hsave : save_events store aggregate_id events expected_version
              = .ok (store ++ events) := by
            rw [save_events, if_neg (by simp [hne']), if_neg (by simp [hv]),
              hspec.1 hcol]
          rw [hsave]
          refine ⟨by simp [hv, hcol], ?_, by simp⟩
          constructor
          · intro ⟨m, hm⟩
            cases hm
          · intro h
            rcases h with h | h
            · exact absurd hv h
            · simp at h
      | true =>
          obtain ⟨m, hm⟩ := hspec.2 hcol
          have hsave : save_events store aggregate_id events expected_version
              = .error ("Concurrency conflict detected when saving events: " ++ m) := by
            rw [save_events, if_neg (by simp [hne']), if_neg (by simp [hv]), hm]
          rw [hsave]
          refine ⟨by simp, ?_, by simp⟩
          constructor
          · intro _
            right
            rfl
          · intro _
            exact ⟨_, rfl⟩
    · have hsave : save_events store aggregate_id events expected_version
          = .error "Concurrency conflict: version mismatch" := by
        rw [save_events, if_neg (by simp [hne']), if_pos hv]
      rw [hsave]
      refine ⟨by simp [hv], ?_, by simp⟩
      constructor
      · intro _
        left
        exact hv
      · intro _
        exact ⟨_, rfl⟩

/-- Witness for C8 on a concrete table: a well-versioned batch for
`"P001"` with `expected_version = 2`. -/
theorem c8_save_events_semantics_witness :
    freshEventIds storeW eventsW ∧
    ((eventsW = [] →
      save_events storeW "P001" eventsW 2 = .ok storeW) ∧
    (eventsW ≠ [] →
      ((save_events storeW "P001" eventsW 2 = .ok (storeW ++ eventsW))
        ↔ (storeCurrentVersion storeW "P001" = 2 ∧
           hasVersionCollision storeW eventsW = false)) ∧
      ((∃ m, save_events storeW "P001" eventsW 2 = .error m)
        ↔ (storeCurrentVersion storeW "P001" ≠ 2 ∨
           hasVersionCollision storeW eventsW = true)) ∧
      (save_events storeW "P001" eventsW 2 = .ok (storeW ++ eventsW) ∨
       ∃ m, save_events storeW "P001" eventsW 2 = .error m))) :=
  ⟨⟨by decide, by decide⟩,
   c8_save_events_semantics storeW "P001" eventsW 2 ⟨by decide, by decide⟩⟩
